import Mathlib

/-!
# Verification of the native-shell typed-tree pipeline

A shallow embedding of the `native_shell` astgen / codegen core
(`src/native_shell/util/result.py`, `defs/parse_tree/defs.py`,
`defs/script.py`, `astgen/gen_final.py`, `astgen/node_visit.py`,
`defs/syntax_tree/validations.py`, `codegen/expand_template.py`),
together with theorems settling the specification claims about it.

Python dynamic values are modelled as follows: `str | int` source-path
elements become `PathElem`; node keys (`str | int`) become `PKey`;
`None`-able cells become `Option`; mutation becomes explicit state
passing; a raised `RuntimeError` / uncaught exception becomes
`Except.error`; object identity of type objects is modelled by a
numeric `uid` tag (two values denote the same CPython object exactly
when the tags agree).
-/

namespace NativeShell

/-! ## util/result.py : SourcePath, Problem -/

/-- `SourcePathElement = Union[str, int]` (util/result.py). -/
inductive PathElem where
  | str (v : String)
  | num (v : Int)
deriving DecidableEq, Repr

/-- Python `str(element)`, used by `ParsedNodeId.node_ptr`. -/
def PathElem.render : PathElem → String
  | .str v => v
  | .num v => toString v

/-- `SourcePath = Sequence[SourcePathElement]`. -/
abbrev SourcePath := List PathElem

/-- `NodeReference = Sequence[str]` (defs/basic.py). -/
abbrev NodeRef := List String

/-- `ProblemLevel = Literal["error", "warning", "info"]`. -/
inductive ProblemLevel where
  | error
  | warning
  | info
deriving DecidableEq, Repr

/-- The `UserMessage` payloads produced by the modelled code, one
constructor per source-format string, carrying the rendered arguments.
The constructor names abbreviate the exact i18n strings in the source. -/
inductive UMsg where
  /-- "No type discovered for \x7btype\x7d" (gen_final.py validate_nodes). -/
  | noTypeDiscovered (type : String)
  /-- "parent parameter '\x7bkey\x7d' requires type '\x7bparam_type\x7d', but node has
  type '\x7bnode_type\x7d'." (gen_final.py validate_nodes). -/
  | parentParamTypeMismatch (key : String) (nodeType : String) (paramType : String)
  /-- "Node's parent isn't valid or did not mark this parameter as a list". -/
  | parentNotListParam
  /-- "expected children of type \x7breq\x7d, but '\x7bkey\x7d' has type \x7bchild_type\x7d". -/
  | listChildTypeMismatch (req : String) (key : String) (childType : String)
  /-- "Node's parent marked this node as list". -/
  | parentMarkedAsList
  /-- "Parent requires '\x7bkey\x7d' of type '\x7breq\x7d', but found '\x7btyp\x7d'". -/
  | paramChildTypeMismatch (key : String) (req : String) (typ : String)
  /-- "Node requires '\x7bkey\x7d' parameter, but it is missing". -/
  | missingRequiredParameter (key : String)
  /-- "Node contains unknown keys \x7bkeys\x7d" (keys rendered from
  `repr(remaining_children.keys())`; the model carries the key list). -/
  | unknownKeys (keys : List String)
  /-- "Did not generate child \x7bkey\x7d of \x7bptr\x7d" (gen_final.py finish_tree). -/
  | didNotGenerateChild (key : String) (ptr : String)
  /-- "Root node cannot be of meta-type (\x7btype\x7d)" (expand_meta_types). -/
  | rootMetaType (type : String)
  /-- "Meta-Type generators in tree created too many meta-type generators.
  Quit after \x7bcount\x7d attempts" (expand_meta_types). -/
  | tooManyMetaExpansions (count : Nat)
  /-- "duplicate type registration: '\x7bkey\x7d'; found in \x7baddin\x7d"
  (defs/script.py HandlerStore.create). -/
  | duplicateTypeRegistration (key : String) (addin : String)
  /-- "Reference \x7bcurrent\x7d contains cyclic lookup to \x7bother\x7d"
  (codegen/expand_template.py). -/
  | cyclicLookup (current : String) (other : String)
  /-- "No template found for \x7bpurpose\x7d at \x7bref\x7d". -/
  | noTemplateFound (purpose : String) (ref : String)
  /-- "Multiple templates found for \x7bpurpose\x7d at \x7bref\x7d". -/
  | multipleTemplates (purpose : String) (ref : String)
  /-- "source paths must have at least 1 element" (validations.py). -/
  | sourcePathEmpty
  /-- "integer path elements must be non-negative, found \x7bvalue\x7d". -/
  | sourcePathNegativeInt (value : Int)
  /-- "path elements must contain text, found '\x7bvalue\x7d'". -/
  | sourcePathEmptyText
  /-- "path elements must contain printable unicode and not '/', found '\x7bvalue\x7d'". -/
  | sourcePathBadText (value : String)
  /-- "Assigned simple node to not basic type \x7bname\x7d" (parse_tree/defs.py). -/
  | assignedSimpleNonBasic (name : String)
deriving DecidableEq, Repr

/-- `Problem` (util/result.py): error/warning/info + source path + message. -/
structure Problem where
  source : SourcePath
  level : ProblemLevel
  message : UMsg
deriving DecidableEq, Repr

/-- `Problem.as_validation`: always level `"error"`. -/
def Problem.asValidation (source : SourcePath) (message : UMsg) : Problem :=
  ⟨source, .error, message⟩

/-- `Problem.is_error`. -/
def Problem.isError (p : Problem) : Bool :=
  p.level == .error

/-- `Result` (util/result.py): an invalid result has no value
(`Invalid results must have None type values`), a valid result has a
value and may still carry problems. -/
inductive PResult (α : Type) where
  /-- `Result.as_value(value, *problems)` — valid, possibly with problems. -/
  | ok (value : α) (problems : List Problem)
  /-- `Result.as_error(*problems)` — invalid. -/
  | err (problems : List Problem)
deriving DecidableEq, Repr

namespace PResult

/-- `Result.is_valid`. -/
def isValid : PResult α → Bool
  | .ok _ _ => true
  | .err _ => false

/-- `Result.is_not_valid`. -/
def isNotValid : PResult α → Bool
  | .ok _ _ => false
  | .err _ => true

/-- `Result.problems`. -/
def problems : PResult α → List Problem
  | .ok _ ps => ps
  | .err ps => ps

/-- `Result.map_result`: if invalid return self unchanged (note: the
problems of a *valid* input result are dropped), else apply. -/
def mapResult : PResult α → (α → PResult β) → PResult β
  | .err ps, _ => .err ps
  | .ok v _, f => f v

end PResult

/-- `ResultGen` (util/result.py): an accumulating problem list plus an
invalid flag; the flag is set when an error-level problem or an invalid
result is added. -/
structure RGen where
  problems : List Problem
  invalid : Bool
deriving DecidableEq, Repr

namespace RGen

def empty : RGen := ⟨[], false⟩

/-- `ResultGen.add` with a single `Problem` argument. -/
def addProblem (g : RGen) (p : Problem) : RGen :=
  ⟨g.problems ++ [p], g.invalid || p.isError⟩

/-- `ResultGen.add` with an iterable of problems (added in order). -/
def addProblems (g : RGen) (ps : List Problem) : RGen :=
  ps.foldl RGen.addProblem g

/-- `ResultGen.add` with a `Result` argument: extend with its problems
and become invalid if the result is invalid. -/
def addResult (g : RGen) (r : PResult α) : RGen :=
  ⟨g.problems ++ r.problems, g.invalid || r.isNotValid⟩

/-- `ResultGen.force_not_valid`. -/
def forceNotValid (g : RGen) : RGen :=
  ⟨g.problems, true⟩

/-- `ResultGen.is_not_valid`. -/
def isNotValid (g : RGen) : Bool := g.invalid

/-- `ResultGen.build`. -/
def build (g : RGen) (v : α) : PResult α :=
  if g.invalid then .err g.problems else .ok v g.problems

end RGen

theorem RGen.addProblems_append (g : RGen) (ps qs : List Problem) :
    g.addProblems (ps ++ qs) = (g.addProblems ps).addProblems qs :=
  List.foldl_append ..

theorem RGen.addProblems_problems (g : RGen) (ps : List Problem) :
    (g.addProblems ps).problems = g.problems ++ ps := by
  induction ps generalizing g with
  | nil => simp [RGen.addProblems]
  | cons p rest ih =>
      simp [RGen.addProblems] at ih ⊢
      rw [ih]
      simp [RGen.addProblem]

theorem RGen.addProblems_invalid (g : RGen) (ps : List Problem) :
    (g.addProblems ps).invalid = (g.invalid || ps.any Problem.isError) := by
  induction ps generalizing g with
  | nil => simp [RGen.addProblems]
  | cons p rest ih =>
      simp [RGen.addProblems] at ih ⊢
      rw [ih]
      simp [RGen.addProblem, Bool.or_assoc]

/-! ## defs/syntax_tree/defs.py : the type model used by astgen

`BasicType` is a string literal (`"string" | "number" | "integer" |
"boolean" | "reference"`), `LIST_TYPE_NAME = "list"` is a string, and
`AbcType` is an object with `type_id`, `parameters()` and `fields()`.
A node's assigned type is one of these (or `None`).  CPython compares a
string against an `AbcType` object as unequal, and two `AbcType`
objects (no `__eq__`) by identity; identity is carried by `uid`. -/

mutual

/-- A Python value inhabiting `Union[BasicType, ListType, AbcType]`:
either a plain string ("string", …, or "list") or a concrete type object. -/
inductive TypeVal : Type where
  | basic (name : String)
  | construct (c : ConstructT)

/-- An `AbcType` object (concretely `ConstructType` /
`helpers.DefaultType`): identity tag, `type_id`, `__repr__` title,
declared parameters, declared fields. -/
inductive ConstructT : Type where
  | mk (uid : Nat) (typeId : String) (title : String)
      (params : List TypeParam) (fields : List TypeField)

/-- A `TypeParameter`: `key()`, `is_list()`, `type()`, `is_required()`. -/
inductive TypeParam : Type where
  | mk (key : String) (isList : Bool) (tv : TypeVal) (required : Bool)

/-- A `TypeField`: `key()` and `type()` (always an `AbcType`;
represented as a `TypeVal` that is `construct` for well-typed add-ins). -/
inductive TypeField : Type where
  | mk (key : String) (tv : TypeVal)

end

def ConstructT.uid : ConstructT → Nat
  | .mk u _ _ _ _ => u

def ConstructT.typeId : ConstructT → String
  | .mk _ t _ _ _ => t

def ConstructT.title : ConstructT → String
  | .mk _ _ t _ _ => t

/-- `AbcType.parameters()`. -/
def ConstructT.parameters : ConstructT → List TypeParam
  | .mk _ _ _ ps _ => ps

/-- `AbcType.fields()`. -/
def ConstructT.fields : ConstructT → List TypeField
  | .mk _ _ _ _ fs => fs

def TypeParam.key : TypeParam → String
  | .mk k _ _ _ => k

def TypeParam.isList : TypeParam → Bool
  | .mk _ l _ _ => l

/-- `TypeParameter.type()`. -/
def TypeParam.tv : TypeParam → TypeVal
  | .mk _ _ t _ => t

def TypeParam.isRequired : TypeParam → Bool
  | .mk _ _ _ r => r

def TypeField.key : TypeField → String
  | .mk k _ => k

def TypeField.tv : TypeField → TypeVal
  | .mk _ t => t

/-- CPython `==` between assigned-type values: strings compare by
value; a string and an `AbcType` object are never equal; two `AbcType`
objects compare by identity (`uid`). -/
def TypeVal.pyEq : TypeVal → TypeVal → Bool
  | .basic a, .basic b => a == b
  | .construct c, .construct d => c.uid == d.uid
  | _, _ => false

/-- Python `repr()` for an assigned-type value: `repr` of a string adds
quotes; `ConstructType.__repr__` returns the title (defs/node_type). -/
def TypeVal.pyRepr : TypeVal → String
  | .basic s => "'" ++ s ++ "'"
  | .construct c => c.title

/-- Python `repr()` of an `Optional` assigned type (`repr(None) = "None"`). -/
def pyReprOptType : Option TypeVal → String
  | none => "None"
  | some t => t.pyRepr

/-- `BASIC_TYPE_NAMES` (defs/syntax_tree/defs.py). -/
def BASIC_TYPE_NAMES : List String :=
  ["string", "number", "integer", "boolean", "reference"]

/-- `LIST_TYPE_NAME`. -/
def LIST_TYPE_NAME : String := "list"

/-! ## defs/parse_tree/defs.py : the mutable parsed tree -/

/-- A node key: `str` for parameter containers, `int` (non-negative
index) for list containers. -/
inductive PKey where
  | str (v : String)
  | num (v : Nat)
deriving DecidableEq, Repr

/-- Python `str(key)`. -/
def PKey.render : PKey → String
  | .str v => v
  | .num v => toString v

/-- `ParsedNodeId`: source path plus reference path; `node_ptr` is the
"/"-joined source. -/
structure NodeId where
  source : SourcePath
  ref : NodeRef
deriving DecidableEq, Repr

/-- `ParsedNodeId.node_ptr`. -/
def NodeId.nodePtr (n : NodeId) : String :=
  String.intercalate "/" (n.source.map PathElem.render)

/-- `SimpleParameter = Union[int, float, bool, str, NodeReference]`
(defs/basic.py).  `float` is omitted: none of the modelled code
inspects simple values, so a float constant never influences any
modelled behaviour. -/
inductive SimpleVal where
  | int (v : Int)
  | bool (v : Bool)
  | str (v : String)
  | ref (v : NodeRef)
deriving DecidableEq, Repr

/-- A `ParentReference`: the parent container (identified by its node
id; `ParentReference.node` is an object pointer, modelled by the
parent's id), the key within it, and the set-once cached
`parameter_type`. -/
structure PRef where
  parentId : NodeId
  key : PKey
  parameterType : Option TypeParam

/-- Shared mutable per-node state of `ParsedSimpleNode`. -/
structure SimpleData where
  nodeId : NodeId
  parent : Option PRef
  typeId : String
  value : SimpleVal
  rgen : RGen
  /-- the `__type` cell: `cast(BasicType, type_id)` when basic, else `None`. -/
  typeCell : Option String

/-- Shared mutable per-node state of `ParsedListNode` (children are the
`items` of the enclosing `PNode.list`). -/
structure ListData where
  nodeId : NodeId
  parent : Option PRef
  /-- the set-once `__item_type` cell. -/
  itemType : Option TypeParam
  rgen : RGen

/-- Shared mutable per-node state of `ParsedParameterNode` (children
are the `entries` of the enclosing `PNode.param`). -/
structure ParamData where
  nodeId : NodeId
  parent : Option PRef
  typeId : String
  /-- the set-once `__type` cell (`set_type` accepts an `AbcType`). -/
  typeCell : Option ConstructT
  rgen : RGen

/-- The closed tagged union of the three parsed-node kinds.  List items
are kept in order (list keys are the indices `0..n-1`); parameter
entries are kept in insertion order, as a CPython `dict` does. -/
inductive PNode where
  | simple (d : SimpleData)
  | list (d : ListData) (items : List PNode)
  | param (d : ParamData) (entries : List (String × PNode))

namespace PNode

/-- `node_id`. -/
def nodeId : PNode → NodeId
  | .simple d => d.nodeId
  | .list d _ => d.nodeId
  | .param d _ => d.nodeId

/-- `type_id` (a list node's is always `LIST_TYPE_NAME`). -/
def typeId : PNode → String
  | .simple d => d.typeId
  | .list _ _ => LIST_TYPE_NAME
  | .param d _ => d.typeId

/-- `get_parent`. -/
def getParent : PNode → Option PRef
  | .simple d => d.parent
  | .list d _ => d.parent
  | .param d _ => d.parent

/-- The node's `ResultGen` of problems. -/
def rgen : PNode → RGen
  | .simple d => d.rgen
  | .list d _ => d.rgen
  | .param d _ => d.rgen

/-- `problems()`. -/
def problems (n : PNode) : List Problem :=
  n.rgen.problems

/-- `is_not_valid()`. -/
def isNotValid (n : PNode) : Bool :=
  n.rgen.invalid

/-- `get_assigned_type()`: a simple node's basic-type cell, the literal
`"list"` for list nodes, a parameter node's type cell. -/
def getAssignedType : PNode → Option TypeVal
  | .simple d => d.typeCell.map .basic
  | .list _ _ => some (.basic LIST_TYPE_NAME)
  | .param d _ => d.typeCell.map .construct

/-- `mapping()` as an ordered association list: numeric indices for a
list node, string keys (insertion order) for a parameter node, empty
for a simple node. -/
def mapping : PNode → List (PKey × PNode)
  | .simple _ => []
  | .list _ items => (items.enum.map fun (i, n) => (PKey.num i, n))
  | .param _ entries => entries.map fun (k, n) => (PKey.str k, n)

/-- `add_problem` with a single problem. -/
def addProblem : PNode → Problem → PNode
  | .simple d, p => .simple { d with rgen := d.rgen.addProblem p }
  | .list d items, p => .list { d with rgen := d.rgen.addProblem p } items
  | .param d entries, p => .param { d with rgen := d.rgen.addProblem p } entries

/-- `add_problem` with a list of problems. -/
def addProblems : PNode → List Problem → PNode
  | .simple d, ps => .simple { d with rgen := d.rgen.addProblems ps }
  | .list d items, ps => .list { d with rgen := d.rgen.addProblems ps } items
  | .param d entries, ps => .param { d with rgen := d.rgen.addProblems ps } entries

/-- `add_problem` with a `Result` argument (problems appended, node
invalid whenever the result is invalid). -/
def addResult : PNode → PResult α → PNode
  | .simple d, r => .simple { d with rgen := d.rgen.addResult r }
  | .list d items, r => .list { d with rgen := d.rgen.addResult r } items
  | .param d entries, r => .param { d with rgen := d.rgen.addResult r } entries

/-- `set_parent` (all three classes): guarded by
`_ensure_parent_not_set`, which raises
`RuntimeError(f"Attempted to set parent for \x7bnode_id\x7d")` when the
cell is already occupied. -/
def setParent (n : PNode) (pr : PRef) : Except String PNode :=
  match n.getParent with
  | some _ => .error ("Attempted to set parent for " ++ n.nodeId.nodePtr)
  | none =>
    .ok <| match n with
      | .simple d => .simple { d with parent := some pr }
      | .list d items => .list { d with parent := some pr } items
      | .param d entries => .param { d with parent := some pr } entries

end PNode

/-- `ParsedParameterNode.set_type`, guarded by `_ensure_type_not_set`
(`RuntimeError(f"Attempted to set type for \x7bnode_id\x7d")`). -/
def ParamData.setType (d : ParamData) (t : ConstructT) : Except String ParamData :=
  match d.typeCell with
  | some _ => .error ("Attempted to set type for " ++ d.nodeId.nodePtr)
  | none => .ok { d with typeCell := some t }

/-- `ParsedListNode.set_item_type`, guarded by
`_ensure_type_property_not_set`
(`RuntimeError(f"Attempted to set item type for \x7bnode_id\x7d")`). -/
def ListData.setItemType (d : ListData) (t : TypeParam) : Except String ListData :=
  match d.itemType with
  | some _ => .error ("Attempted to set item type for " ++ d.nodeId.nodePtr)
  | none => .ok { d with itemType := some t }

/-- `ParentReference.set_parameter_type`: "May only be called once";
raises a `RuntimeError` on a second write. -/
def PRef.setParameterType (r : PRef) (t : TypeParam) : Except String PRef :=
  match r.parameterType with
  | some _ => .error "attempted to set parameter type twice"
  | none => .ok { r with parameterType := some t }

/-- `ParsedListNode.replace_value` / `ParsedParameterNode.replace_value`:
replace the child at `key` with `node`, setting the new node's parent
first (which raises if already set); returns the updated container and
the replaced child, whose own parent cell is *not* touched.  A simple
node raises; a missing key raises (IndexError / KeyError). -/
def PNode.replaceValue (container : PNode) (key : PKey) (node : PNode) :
    Except String (PNode × PNode) :=
  match container with
  | .simple d =>
    .error ("Attempted to replace '" ++ key.render ++ "' on non-container node "
      ++ d.nodeId.nodePtr)
  | .list d items =>
    -- `index = int(key)`: a non-numeric string key raises ValueError.
    match key with
    | .str _ => .error "invalid literal for int()"
    | .num index =>
      match items[index]? with
      | none => .error "list index out of range"
      | some ret => do
        let node' ← node.setParent ⟨d.nodeId, .num index, none⟩
        .ok (.list d (items.set index node'), ret)
  | .param d entries =>
    let sKey := key.render
    match (entries.find? fun e => e.1 == sKey) with
    | none => .error "KeyError"
    | some (_, ret) => do
      let node' ← node.setParent ⟨d.nodeId, key, none⟩
      .ok (.param d (entries.map fun e => if e.1 == sKey then (sKey, node') else e), ret)

/-! ## astgen/gen_final.py : `expand_meta_types`

One sweep is a `post_visit_parsed_node` pass whose visitor skips
invalid nodes, reports a meta-typed node with no parent link, and
otherwise calls the meta handler's `translate`; on failure it attaches
the result to the node, on success it splices the translated subtree
into the parent at the node's position (via `replace_value`, which sets
the new node's parent) and flags the sweep as changed.

The model recurses structurally: children are swept first (the real
traversal visits siblings in reverse sorted-key order, which is
observationally equal because each slot is handled independently), and
`replace_value` on the stored parent reference is performed as a
structural splice at the node's slot — for pipeline trees the stored
reference aliases exactly that slot, and the `IndexError`/`KeyError`
paths of `replace_value` cannot fire there. -/

/-- The meta-handler environment: `handlers.get_meta_handler(type_id)`
combined with each handler's `translate`. -/
def MetaEnv := String → Option (PNode → PResult PNode)

/-- The visitor body for a node standing in a child slot (its stored
parent reference is the slot); returns the node now occupying the slot
and the updated changed-flag. -/
def visitChild (meta : MetaEnv) (n : PNode) (found : Bool) :
    Except String (PNode × Bool) :=
  if n.isNotValid then .ok (n, found)
  else
    match meta n.typeId with
    | none => .ok (n, found)
    | some translate =>
      match n.getParent with
      | none =>
        .ok (n.addProblem (Problem.asValidation n.nodeId.source (.rootMetaType n.typeId)),
          found)
      | some pr =>
        match translate n with
        | .err ps => .ok (n.addResult (PResult.err ps : PResult PNode), found)
        | .ok t _ => do
          let t' ← t.setParent ⟨pr.parentId, pr.key, none⟩
          .ok (t', true)

/-- The visitor body at the tree root.  A meta node that nevertheless
carries a parent link is spliced into that (out-of-tree) container:
`set_parent` on the translated node still runs (and may raise), the
sweep is flagged changed, and the traversed tree keeps the old node. -/
def visitRoot (meta : MetaEnv) (n : PNode) (found : Bool) :
    Except String (PNode × Bool) :=
  if n.isNotValid then .ok (n, found)
  else
    match meta n.typeId with
    | none => .ok (n, found)
    | some translate =>
      match n.getParent with
      | none =>
        .ok (n.addProblem (Problem.asValidation n.nodeId.source (.rootMetaType n.typeId)),
          found)
      | some pr =>
        match translate n with
        | .err ps => .ok (n.addResult (PResult.err ps : PResult PNode), found)
        | .ok t _ => do
          let _ ← t.setParent ⟨pr.parentId, pr.key, none⟩
          .ok (n, true)

mutual

/-- Sweep a node standing in a child slot: children first (post-order),
then the visitor on the node itself. -/
def sweepSub (meta : MetaEnv) : PNode → Except String (PNode × Bool)
  | .simple d => visitChild meta (.simple d) false
  | .list d items => do
      let (items', f) ← sweepItems meta items
      visitChild meta (.list d items') f
  | .param d entries => do
      let (entries', f) ← sweepEntries meta entries
      visitChild meta (.param d entries') f

def sweepItems (meta : MetaEnv) : List PNode → Except String (List PNode × Bool)
  | [] => .ok ([], false)
  | n :: rest => do
      let (n', f1) ← sweepSub meta n
      let (rest', f2) ← sweepItems meta rest
      .ok (n' :: rest', f1 || f2)

def sweepEntries (meta : MetaEnv) :
    List (String × PNode) → Except String (List (String × PNode) × Bool)
  | [] => .ok ([], false)
  | (k, n) :: rest => do
      let (n', f1) ← sweepSub meta n
      let (rest', f2) ← sweepEntries meta rest
      .ok ((k, n') :: rest', f1 || f2)

end

/-- One full sweep (`post_visit_parsed_node(root, visitor)`): the root's
children are swept as child slots, the root itself with the
root-position visitor. -/
def sweep (meta : MetaEnv) : PNode → Except String (PNode × Bool)
  | .simple d => visitRoot meta (.simple d) false
  | .list d items => do
      let (items', f) ← sweepItems meta items
      visitRoot meta (.list d items') f
  | .param d entries => do
      let (entries', f) ← sweepEntries meta entries
      visitRoot meta (.param d entries') f

/-- The round loop of `expand_meta_types`, also counting the sweeps
performed: `for _ in range(0, max_meta_count)` runs one sweep per
round, returns the root as a valid result the first time a sweep makes
no change, and otherwise falls through to the round-cap error (whose
`count` argument is the original `max_meta_count`). -/
def expandGo (meta : MetaEnv) (maxMetaCount : Nat) :
    Nat → PNode → Except String (PResult PNode × Nat)
  | 0, root =>
    .ok (.err [Problem.asValidation root.nodeId.source
      (.tooManyMetaExpansions maxMetaCount)], 0)
  | fuel + 1, root => do
      let (root', found) ← sweep meta root
      if found then
        match expandGo meta maxMetaCount fuel root' with
        | .error e => .error e
        | .ok (r, c) => .ok (r, c + 1)
      else
        .ok (.ok root' [], 1)

/-- `expand_meta_types(root=…, handlers=…, max_meta_count=…)` together
with the number of sweeps it performed. -/
def expandMetaTypesCounted (meta : MetaEnv) (maxMetaCount : Nat) (root : PNode) :
    Except String (PResult PNode × Nat) :=
  expandGo meta maxMetaCount maxMetaCount root

/-- `expand_meta_types` proper (the sweep count dropped). -/
def expandMetaTypes (meta : MetaEnv) (maxMetaCount : Nat) (root : PNode) :
    Except String (PResult PNode) :=
  (expandMetaTypesCounted meta maxMetaCount root).map Prod.fst

/-- The state of the tree after `k+1` sweeps, with the changed-flag of
the `(k+1)`-st sweep. -/
def sweepSeq (meta : MetaEnv) (root : PNode) : Nat → Except String (PNode × Bool)
  | 0 => sweep meta root
  | k + 1 =>
    match sweepSeq meta root k with
    | .error e => .error e
    | .ok (r, _) => sweep meta r

@[simp]
theorem PNode.nodeId_addProblem (n : PNode) (p : Problem) :
    (n.addProblem p).nodeId = n.nodeId := by
  cases n <;> rfl

@[simp]
theorem PNode.nodeId_addResult (n : PNode) (r : PResult α) :
    (n.addResult r).nodeId = n.nodeId := by
  cases n <;> rfl

/-- The root-position visitor never substitutes a different node for
the root: its node id is preserved. -/
theorem visitRoot_nodeId (meta : MetaEnv) (n : PNode) (found : Bool)
    (r : PNode) (b : Bool) (h : visitRoot meta n found = .ok (r, b)) :
    r.nodeId = n.nodeId := by
  unfold visitRoot at h
  split at h
  · cases h; rfl
  · split at h
    · cases h; rfl
    · split at h
      · cases h; simp
      · split at h
        · cases h; simp
        · simp only [bind, Except.bind] at h
          split at h
          · cases h
          · cases h; rfl

/-- A sweep keeps the root node's id. -/
theorem sweep_nodeId (meta : MetaEnv) (root r : PNode) (b : Bool)
    (h : sweep meta root = .ok (r, b)) : r.nodeId = root.nodeId := by
  cases root with
  | simple d => exact visitRoot_nodeId meta _ false r b h
  | list d items =>
      unfold sweep at h
      simp only [bind, Except.bind] at h
      split at h
      · cases h
      · exact (visitRoot_nodeId meta _ _ r b h).trans rfl
  | param d entries =>
      unfold sweep at h
      simp only [bind, Except.bind] at h
      split at h
      · cases h
      · exact (visitRoot_nodeId meta _ _ r b h).trans rfl

/-- The loop performs at most as many sweeps as it has rounds. -/
theorem expandGo_count_le (meta : MetaEnv) (maxC : Nat) :
    ∀ (fuel : Nat) (root : PNode) (r : PResult PNode) (c : Nat),
      expandGo meta maxC fuel root = .ok (r, c) → c ≤ fuel := by
  intro fuel
  induction fuel with
  | zero => intro root r c h; cases h; exact Nat.le_refl 0
  | succ f ih =>
      intro root r c h
      unfold expandGo at h
      simp only [bind, Except.bind] at h
      split at h
      · cases h
      next val heq =>
        obtain ⟨root', found⟩ := val
        by_cases hf : found = true
        · subst hf
          simp only [if_true] at h
          cases heq2 : expandGo meta maxC f root' with
          | error e => rw [heq2] at h; cases h
          | ok rc =>
              obtain ⟨r2, c2⟩ := rc
              rw [heq2] at h
              simp only [Except.ok.injEq, Prod.mk.injEq] at h
              obtain ⟨hr, hc⟩ := h
              subst hc
              exact Nat.succ_le_succ (ih root' r2 c2 heq2)
        · simp only [Bool.not_eq_true] at hf
          subst hf
          simp only [Bool.false_eq_true, if_false] at h
          cases h
          exact Nat.succ_le_succ (Nat.zero_le f)

/-- Shifting the sweep sequence across the first sweep. -/
theorem sweepSeq_shift (meta : MetaEnv) (root r0 : PNode) (b : Bool)
    (h : sweep meta root = .ok (r0, b)) :
    ∀ j, sweepSeq meta root (j + 1) = sweepSeq meta r0 j := by
  intro j
  induction j with
  | zero => simp [sweepSeq, h]
  | succ j ih =>
      show (match sweepSeq meta root (j + 1) with
        | .error e => .error e
        | .ok (r, _) => sweep meta r) = sweepSeq meta r0 (j + 1)
      rw [ih]
      rfl

/-- If every sweep up to the fuel bound makes a change, the loop runs out
of fuel and returns the round-cap error, having used every round. -/
theorem expandGo_all_changed (meta : MetaEnv) (maxC : Nat) :
    ∀ (fuel : Nat) (root : PNode),
      (∀ j, j < fuel → ∃ rj, sweepSeq meta root j = .ok (rj, true)) →
      expandGo meta maxC fuel root =
        .ok (.err [Problem.asValidation root.nodeId.source
          (.tooManyMetaExpansions maxC)], fuel) := by
  intro fuel
  induction fuel with
  | zero => intro root _; rfl
  | succ f ih =>
      intro root h
      obtain ⟨r0, h0⟩ := h 0 (Nat.succ_pos f)
      have h0' : sweep meta root = .ok (r0, true) := h0
      have hrec : ∀ j, j < f → ∃ rj, sweepSeq meta r0 j = .ok (rj, true) := by
        intro j hj
        obtain ⟨rj, hrj⟩ := h (j + 1) (Nat.succ_lt_succ hj)
        exact ⟨rj, (sweepSeq_shift meta root r0 true h0' j).symm.trans hrj⟩
      have hid : r0.nodeId = root.nodeId := sweep_nodeId meta root r0 true h0'
      unfold expandGo
      simp only [bind, Except.bind, h0', if_true]
      rw [ih r0 hrec, hid]

/-- If the sweeps make changes until the `k`-th sweep (0-based) makes
none, and there is fuel for it, the loop returns that tree as a valid
result after exactly `k + 1` sweeps. -/
theorem expandGo_first_unchanged (meta : MetaEnv) (maxC : Nat) :
    ∀ (k fuel : Nat) (root rk : PNode), k < fuel →
      (∀ j, j < k → ∃ rj, sweepSeq meta root j = .ok (rj, true)) →
      sweepSeq meta root k = .ok (rk, false) →
      expandGo meta maxC fuel root = .ok (.ok rk [], k + 1) := by
  intro k
  induction k with
  | zero =>
      intro fuel root rk hk _ hsweep
      obtain ⟨f, rfl⟩ := Nat.exists_eq_succ_of_ne_zero (Nat.pos_iff_ne_zero.mp hk)
      have hs : sweep meta root = .ok (rk, false) := hsweep
      unfold expandGo
      simp [bind, Except.bind, hs]
  | succ k ih =>
      intro fuel root rk hk h hsweep
      obtain ⟨f, rfl⟩ := Nat.exists_eq_succ_of_ne_zero
        (Nat.pos_iff_ne_zero.mp (Nat.lt_of_le_of_lt (Nat.zero_le _) hk))
      obtain ⟨r0, h0⟩ := h 0 (Nat.succ_pos k)
      have h0' : sweep meta root = .ok (r0, true) := h0
      have hrec : ∀ j, j < k → ∃ rj, sweepSeq meta r0 j = .ok (rj, true) := by
        intro j hj
        obtain ⟨rj, hrj⟩ := h (j + 1) (Nat.succ_lt_succ hj)
        exact ⟨rj, (sweepSeq_shift meta root r0 true h0' j).symm.trans hrj⟩
      have hsk : sweepSeq meta r0 k = .ok (rk, false) :=
        (sweepSeq_shift meta root r0 true h0' k).symm.trans hsweep
      have := ih f r0 rk (Nat.lt_of_succ_lt_succ hk) hrec hsk
      unfold expandGo
      simp only [bind, Except.bind, h0', if_true]
      rw [this]

/-! A concrete self-referential macro: the handler for type id `"loop"`
translates any node into a fresh node of type `"loop"` again, so every
sweep performs a replacement and no fixed point is ever reached. -/

def selfRootId : NodeId := ⟨[.str "s"], []⟩

def selfChildId : NodeId := ⟨[.str "s", .str "m"], ["m"]⟩

/-- The translated output: a fresh parameter node of the same meta type
with no parent link (so `replace_value` can adopt it). -/
def freshLoopNode : PNode :=
  .param ⟨selfChildId, none, "loop", none, RGen.empty⟩ []

/-- The meta handler environment containing exactly the `"loop"` macro. -/
def selfMeta : MetaEnv := fun id =>
  if id = "loop" then some (fun _ => .ok freshLoopNode []) else none

/-- A root (non-meta) parameter node whose `"m"` child is a
self-referential macro use. -/
def selfTree : PNode :=
  .param ⟨selfRootId, none, "root-type", none, RGen.empty⟩
    [("m", .param ⟨selfChildId, some ⟨selfRootId, .str "m", none⟩, "loop", none,
        RGen.empty⟩ [])]

/-- Sweeping the self-referential tree replaces the macro child with an
identical fresh macro child: a changed fixed point. -/
theorem sweep_selfTree : sweep selfMeta selfTree = .ok (selfTree, true) := rfl

theorem sweepSeq_selfTree : ∀ k, sweepSeq selfMeta selfTree k = .ok (selfTree, true) := by
  intro k
  induction k with
  | zero => exact sweep_selfTree
  | succ k ih =>
      show (match sweepSeq selfMeta selfTree k with
        | .error e => .error e
        | .ok (r, _) => sweep selfMeta r) = Except.ok (selfTree, true)
      rw [ih]
      exact sweep_selfTree

/-- **C3** (confirmed).  For every parsed tree and every
`max_rounds ≥ 1`, `expand_meta_types` performs at most `max_rounds`
post-order sweeps and always terminates (the model is a total
function): it returns the root as a valid result as soon as one sweep
performs zero macro replacements, and if every sweep up to the cap
performed at least one replacement it returns an error result carrying
the too-many-expansion-rounds diagnostic; in particular the concrete
self-referential macro `selfMeta` fails with that diagnostic after
exactly `max_rounds` sweeps. -/
theorem expand_meta_types_round_spec (meta : MetaEnv) (maxC : Nat) (root : PNode)
    (_hpos : 1 ≤ maxC) :
    (∀ res c, expandMetaTypesCounted meta maxC root = .ok (res, c) → c ≤ maxC)
    ∧ ((∀ j, j < maxC → ∃ rj, sweepSeq meta root j = .ok (rj, true)) →
        expandMetaTypesCounted meta maxC root =
          .ok (.err [Problem.asValidation root.nodeId.source
            (.tooManyMetaExpansions maxC)], maxC))
    ∧ (∀ k rk, k < maxC →
        (∀ j, j < k → ∃ rj, sweepSeq meta root j = .ok (rj, true)) →
        sweepSeq meta root k = .ok (rk, false) →
        expandMetaTypesCounted meta maxC root = .ok (.ok rk [], k + 1)
          ∧ k + 1 ≤ maxC)
    ∧ (∀ m, 1 ≤ m → expandMetaTypesCounted selfMeta m selfTree =
        .ok (.err [Problem.asValidation selfTree.nodeId.source
          (.tooManyMetaExpansions m)], m)) := by
  refine ⟨?_, ?_, ?_, ?_⟩
  · intro res c h
    exact expandGo_count_le meta maxC maxC root res c h
  · intro h
    exact expandGo_all_changed meta maxC maxC root h
  · intro k rk hk hch hun
    exact ⟨expandGo_first_unchanged meta maxC k maxC root rk hk hch hun, hk⟩
  · intro m _
    exact expandGo_all_changed selfMeta m m selfTree
      (fun j _ => ⟨selfTree, sweepSeq_selfTree j⟩)

/-- Witness for C3: with the self-referential macro and
`max_rounds = 2`, expansion stops with the round-cap error after
exactly 2 sweeps; with a macro-free environment, the very first sweep
is unchanged and expansion succeeds after 1 sweep. -/
theorem expand_meta_types_round_spec_witness :
    expandMetaTypesCounted selfMeta 2 selfTree =
      .ok (.err [Problem.asValidation selfTree.nodeId.source
        (.tooManyMetaExpansions 2)], 2)
    ∧ expandMetaTypesCounted (fun _ => none) 2 selfTree = .ok (.ok selfTree [], 1) := by
  constructor
  · exact (expand_meta_types_round_spec selfMeta 2 selfTree (by decide)).2.2.2
      2 (by decide)
  · exact ((expand_meta_types_round_spec (fun _ => none) 2 selfTree
      (by decide)).2.2.1 0 selfTree (by decide) (by intro j hj; cases hj) rfl).1

/-- **C10** (confirmed).  With `max_meta_count = 0` the round loop body
never runs, so the zero-changes success exit is unreachable:
`expand_meta_types` returns the too-many-expansion-rounds error for
every input tree and every handler environment, including trees with no
macro-typed nodes at all. -/
theorem expand_meta_types_zero_rounds (meta : MetaEnv) (root : PNode) :
    expandMetaTypes meta 0 root =
      .ok (.err [Problem.asValidation root.nodeId.source
        (.tooManyMetaExpansions 0)]) := rfl

/-- If a node's parent cell is empty, `set_parent` succeeds and stores
the reference. -/
theorem setParent_of_none (n : PNode) (pr : PRef) (h : n.getParent = none) :
    ∃ n', n.setParent pr = .ok n' ∧ n'.getParent = some pr
      ∧ n'.nodeId = n.nodeId := by
  cases n with
  | simple d =>
      refine ⟨.simple { d with parent := some pr }, ?_, rfl, rfl⟩
      simp only [PNode.setParent, h]
  | list d items =>
      refine ⟨.list { d with parent := some pr } items, ?_, rfl, rfl⟩
      simp only [PNode.setParent, h]
  | param d entries =>
      refine ⟨.param { d with parent := some pr } entries, ?_, rfl, rfl⟩
      simp only [PNode.setParent, h]

/-- **C8** (confirmed).  Every write-once cell of a parsed node — the
parent link (`set_parent` on all three node kinds), a parameter node's
assigned type (`set_type`), a list node's item type (`set_item_type`),
and a `ParentReference`'s cached parameter type
(`set_parameter_type`) — accepts exactly one write: the first write on
an empty cell succeeds and stores the value, and a second write raises
a hard `RuntimeError` (modelled as `Except.error`, so no updated object
exists and the previously stored value persists) instead of emitting a
`Problem`. -/
theorem write_once_cells :
    (∀ (n : PNode) (pr : PRef), n.getParent = none →
      ∃ n', n.setParent pr = .ok n' ∧ n'.getParent = some pr)
    ∧ (∀ (n : PNode) (pr0 pr : PRef), n.getParent = some pr0 →
      n.setParent pr = .error ("Attempted to set parent for " ++ n.nodeId.nodePtr))
    ∧ (∀ (d : ParamData) (t : ConstructT), d.typeCell = none →
      d.setType t = .ok { d with typeCell := some t })
    ∧ (∀ (d : ParamData) (t0 t : ConstructT), d.typeCell = some t0 →
      d.setType t = .error ("Attempted to set type for " ++ d.nodeId.nodePtr))
    ∧ (∀ (d : ListData) (t : TypeParam), d.itemType = none →
      d.setItemType t = .ok { d with itemType := some t })
    ∧ (∀ (d : ListData) (t0 t : TypeParam), d.itemType = some t0 →
      d.setItemType t = .error ("Attempted to set item type for " ++ d.nodeId.nodePtr))
    ∧ (∀ (r : PRef) (t : TypeParam), r.parameterType = none →
      r.setParameterType t = .ok { r with parameterType := some t })
    ∧ (∀ (r : PRef) (t0 t : TypeParam), r.parameterType = some t0 →
      r.setParameterType t = .error "attempted to set parameter type twice") := by
  refine ⟨?_, ?_, ?_, ?_, ?_, ?_, ?_, ?_⟩
  · intro n pr h
    obtain ⟨n', h1, h2, _⟩ := setParent_of_none n pr h
    exact ⟨n', h1, h2⟩
  · intro n pr0 pr h
    cases n <;> simp_all [PNode.setParent, PNode.getParent, PNode.nodeId]
  · intro d t h; simp [ParamData.setType, h]
  · intro d t0 t h; simp [ParamData.setType, h]
  · intro d t h; simp [ListData.setItemType, h]
  · intro d t0 t h; simp [ListData.setItemType, h]
  · intro r t h; simp [PRef.setParameterType, h]
  · intro r t0 t h; simp [PRef.setParameterType, h]

/-- Witness for C8 at concrete cells: a fresh simple node accepts one
parent write and rejects the second; same for the type, item-type and
parameter-type cells. -/
theorem write_once_cells_witness :
    (let n : PNode := .simple ⟨⟨[.str "w"], ["w"]⟩, none, "string", .str "v",
        RGen.empty, some "string"⟩
     let pr : PRef := ⟨⟨[.str "p"], []⟩, .str "k", none⟩
     ∃ n', n.setParent pr = .ok n' ∧ n'.getParent = some pr
       ∧ n'.setParent pr = .error "Attempted to set parent for w") := by
  obtain ⟨n', h1, h2⟩ := write_once_cells.1
    (.simple ⟨⟨[.str "w"], ["w"]⟩, none, "string", .str "v", RGen.empty, some "string"⟩)
    ⟨⟨[.str "p"], []⟩, .str "k", none⟩ rfl
  refine ⟨n', h1, h2, ?_⟩
  have := write_once_cells.2.1 n' ⟨⟨[.str "p"], []⟩, .str "k", none⟩
    ⟨⟨[.str "p"], []⟩, .str "k", none⟩ h2
  have hid : n'.nodeId = ⟨[.str "w"], ["w"]⟩ := by
    have h1' := h1
    simp only [PNode.setParent] at h1'
    cases h1'
    rfl
  rw [this]
  rw [hid]
  rfl

/-- `cleanup()` (all three node classes): clears the parent link and a
container's children; problems are kept. -/
def PNode.cleanup : PNode → PNode
  | .simple d => .simple { d with parent := none }
  | .list d _ => .list { d with parent := none } []
  | .param d _ => .param { d with parent := none } []

/-! Concrete nodes for the `replace_value` claims. -/

def c9ListId : NodeId := ⟨[.str "r", .str "xs"], ["xs"]⟩

def c9OldPRef : PRef := ⟨c9ListId, .num 0, none⟩

def c9OldChild : PNode :=
  .simple ⟨⟨[.str "r", .str "xs", .num 0], ["xs", "0"]⟩, some c9OldPRef, "string",
    .str "old", RGen.empty, some "string"⟩

def c9List : PNode := .list ⟨c9ListId, none, none, RGen.empty⟩ [c9OldChild]

def c9New : PNode := .param ⟨⟨[.str "n"], ["n"]⟩, none, "t", none, RGen.empty⟩ []

/-- **C9 counterexample.**  Replacing the only item of a concrete list
node succeeds, but the replaced (abandoned) subtree's parent link is
*not* cleared: `get_parent` on it still returns the old reference, not
`None`.  (`replace_value` merely returns the old node; only an explicit
`cleanup()` call clears the link, and `expand_meta_types` discards the
returned node without calling it.) -/
theorem replace_value_keeps_old_parent_cex :
    ∃ p', c9List.replaceValue (.num 0) c9New = .ok (p', c9OldChild)
      ∧ c9OldChild.getParent = some c9OldPRef
      ∧ c9OldPRef.parentId = c9ListId := by
  exact ⟨_, rfl, rfl, rfl⟩

/-- **C9** (corrected).  When a node is replaced at its position in a
list container, the new subtree's parent link is set to the same parent
and key, the replaced subtree is returned with its parent link left
*unchanged* (still the old reference; it becomes `None` only after an
explicit `cleanup()`), and the container now holds the new subtree at
that index. -/
theorem replace_value_parent_links (d : ListData) (items : List PNode)
    (idx : Nat) (old new : PNode) (prOld : PRef)
    (hidx : items[idx]? = some old)
    (hold : old.getParent = some prOld)
    (hnew : new.getParent = none) :
    ∃ new', new.setParent ⟨d.nodeId, .num idx, none⟩ = .ok new'
      ∧ new'.getParent = some ⟨d.nodeId, .num idx, none⟩
      ∧ (PNode.list d items).replaceValue (.num idx) new
          = .ok (.list d (items.set idx new'), old)
      ∧ old.getParent = some prOld
      ∧ old.cleanup.getParent = none := by
  obtain ⟨new', h1, h2, _⟩ := setParent_of_none new ⟨d.nodeId, .num idx, none⟩ hnew
  refine ⟨new', h1, h2, ?_, hold, ?_⟩
  · simp only [PNode.replaceValue, hidx, h1, bind, Except.bind]
  · cases old <;> rfl

/-- Witness for C9's amended statement at the concrete list. -/
theorem replace_value_parent_links_witness :
    ∃ new', c9New.setParent ⟨c9ListId, .num 0, none⟩ = .ok new'
      ∧ new'.getParent = some ⟨c9ListId, .num 0, none⟩
      ∧ c9List.replaceValue (.num 0) c9New = .ok (.list ⟨c9ListId, none, none, RGen.empty⟩ ([c9OldChild].set 0 new'), c9OldChild)
      ∧ c9OldChild.getParent = some c9OldPRef
      ∧ c9OldChild.cleanup.getParent = none :=
  replace_value_parent_links ⟨c9ListId, none, none, RGen.empty⟩ [c9OldChild] 0
    c9OldChild c9New c9OldPRef rfl rfl rfl

/-! ## astgen/gen_final.py : `validate_nodes`

The validation pass is a `pre_visit_parsed_node` over the typed tree;
the visitor skips invalid nodes, re-checks the assigned type against
the parent-stored parameter type, and then branches on the node kind.
Problems the visitor attaches to a *child* (the parameter-branch child
type mismatches) land on the child before the child's own visit, so the
child's skip check observes them; the model hands them down the
recursion.  Sibling visit order does not matter: each visit touches
only the node itself and its own children. -/

/-- The re-check of the assigned type against the parent's stored
parameter type (`validate_nodes`, the block guarded by `if parent:`). -/
def parentMismatchProblems (nodeId : NodeId) (typeId : String)
    (parent : Option PRef) (nodeType : TypeVal) : List Problem :=
  match parent with
  | none => []
  | some pr =>
    match pr.parameterType with
    | none => []
    | some pt =>
      if pt.tv.pyEq nodeType then []
      else [Problem.asValidation nodeId.source
        (.parentParamTypeMismatch pr.key.render typeId pt.tv.pyRepr)]

/-- The "parent marked this node as list" check shared by the simple
and parameter branches. -/
def parentListFlagProblems (nodeId : NodeId) (parent : Option PRef) : List Problem :=
  match parent with
  | none => []
  | some pr =>
    match pr.parameterType with
    | none => []
    | some pt =>
      if pt.isList then [Problem.asValidation nodeId.source .parentMarkedAsList]
      else []

/-- Python `a != b` (negated) where `a` is a type value and `b` an
`Optional` type value: `None` compares unequal to everything. -/
def pyEqOptType (a : TypeVal) : Option TypeVal → Bool
  | none => false
  | some b => a.pyEq b

/-- The list-branch loop: each child whose assigned type differs from
the required item type contributes one problem to the *list node*
(`node.add_problem`), in index order. -/
def listChildProblems (source : SourcePath) (it : TypeParam) :
    Nat → List PNode → List Problem
  | _, [] => []
  | i, c :: rest =>
    (if pyEqOptType it.tv c.getAssignedType then []
     else [Problem.asValidation source
       (.listChildTypeMismatch it.tv.pyRepr (toString i) (pyReprOptType c.getAssignedType))])
    ++ listChildProblems source it (i + 1) rest

/-- The problems the `validate_nodes` visitor adds when visiting one
(valid) node: first component to the node itself, second component to
named children (parameter-branch type mismatches).

Note on the parameter branch: the source builds
`remaining_children = dict(node.mapping())` and looks keys up with
`.get` but never deletes a matched key, so when the
`if remaining_children:` check runs the dict still holds *every* child
and the node gains one unknown-keys problem listing all of its keys
whenever it has any child at all.  (The `raise RuntimeError` for a
non-`AbcType` assigned type is unrepresentable here: the model's
parameter-node type cell can only hold a construct type.) -/
def visitProblems : PNode → List Problem × List (String × Problem)
  | .simple d =>
    match d.typeCell with
    | none => ([Problem.asValidation d.nodeId.source (.noTypeDiscovered d.typeId)], [])
    | some bt =>
      (parentMismatchProblems d.nodeId d.typeId d.parent (.basic bt)
        ++ parentListFlagProblems d.nodeId d.parent, [])
  | .list d items =>
    let mismatch :=
      parentMismatchProblems d.nodeId LIST_TYPE_NAME d.parent (.basic LIST_TYPE_NAME)
    let listProbs :=
      match d.itemType with
      | none => [Problem.asValidation d.nodeId.source .parentNotListParam]
      | some it =>
        if it.isList then listChildProblems d.nodeId.source it 0 items
        else [Problem.asValidation d.nodeId.source .parentNotListParam]
    (mismatch ++ listProbs, [])
  | .param d entries =>
    match d.typeCell with
    | none => ([Problem.asValidation d.nodeId.source (.noTypeDiscovered d.typeId)], [])
    | some ct =>
      let mismatch := parentMismatchProblems d.nodeId d.typeId d.parent (.construct ct)
      let listFlag := parentListFlagProblems d.nodeId d.parent
      let childProbs := ct.parameters.filterMap fun p =>
        match entries.find? (fun e => e.1 == p.key) with
        | some (k, val) =>
          if pyEqOptType p.tv val.getAssignedType then none
          else some (k, Problem.asValidation val.nodeId.source
            (.paramChildTypeMismatch p.key p.tv.pyRepr val.typeId))
        | none => none
      let missing := ct.parameters.filterMap fun p =>
        match entries.find? (fun e => e.1 == p.key) with
        | some _ => none
        | none =>
          if p.isRequired then
            some (Problem.asValidation d.nodeId.source (.missingRequiredParameter p.key))
          else none
      let unknown :=
        if entries.isEmpty then []
        else [Problem.asValidation d.nodeId.source (.unknownKeys (entries.map (·.1)))]
      (mismatch ++ listFlag ++ missing ++ unknown, childProbs)

mutual

/-- The validation pass on one node: `parentAdds` are the problems the
parent's visit attached to this node before its own visit; the visitor
runs only if the node (including those) is still valid; children are
always traversed. -/
def validateNode (parentAdds : List Problem) : PNode → PNode
  | .simple d =>
    let rg1 := d.rgen.addProblems parentAdds
    if rg1.invalid then .simple { d with rgen := rg1 }
    else .simple { d with rgen := rg1.addProblems (visitProblems (.simple d)).1 }
  | .list d items =>
    let rg1 := d.rgen.addProblems parentAdds
    if rg1.invalid then .list { d with rgen := rg1 } (validateItems items)
    else
      .list { d with rgen := rg1.addProblems (visitProblems (.list d items)).1 }
        (validateItems items)
  | .param d entries =>
    let rg1 := d.rgen.addProblems parentAdds
    if rg1.invalid then .param { d with rgen := rg1 } (validateEntries [] entries)
    else
      let vp := visitProblems (.param d entries)
      .param { d with rgen := rg1.addProblems vp.1 } (validateEntries vp.2 entries)

def validateItems : List PNode → List PNode
  | [] => []
  | n :: rest => validateNode [] n :: validateItems rest

def validateEntries (childAdds : List (String × Problem)) :
    List (String × PNode) → List (String × PNode)
  | [] => []
  | (k, n) :: rest =>
    (k, validateNode ((childAdds.filter (fun c => c.1 == k)).map (·.2)) n)
      :: validateEntries childAdds rest

end

/-- `validate_nodes(tree)`: the pass applied from the root (mutating
the nodes' problem lists in place; the model returns the updated
tree). -/
def validateNodes (root : PNode) : PNode :=
  validateNode [] root

/-- `ListType` from defs/node_type/defs.py: a declared list type
carries its item parameter and the `[minimum_count, maximum_count]`
bounds (`get_minimum_count` / `get_maximum_count`, the maximum optional).
This is the only place declared count bounds exist; nothing in the
astgen validation pass consumes them. -/
structure ListTypeN where
  typeId : String
  items : TypeParam
  minimumCount : Nat
  maximumCount : Option Nat

/-! Concrete data for the list-count claims: a declared string-list
type with bounds `[1, 3]`, an empty (below-minimum) list node and a
four-item (above-maximum) list node. -/

def c2ItemParam : TypeParam := .mk "xs" true (.basic "string") false

def c2DeclaredType : ListTypeN := ⟨"list-of-strings", c2ItemParam, 1, some 3⟩

def c2RootId : NodeId := ⟨[.str "r"], []⟩

def c2ListId : NodeId := ⟨[.str "r", .str "xs"], ["xs"]⟩

def c2EmptyList : PNode :=
  .list ⟨c2ListId, some ⟨c2RootId, .str "xs", none⟩, some c2ItemParam, RGen.empty⟩ []

def c2Item (i : Nat) : PNode :=
  .simple ⟨⟨[.str "r", .str "xs", .num i], ["xs", toString i]⟩,
    some ⟨c2ListId, .num i, none⟩, "string", .str "v", RGen.empty, some "string"⟩

def c2LongList : PNode :=
  .list ⟨c2ListId, some ⟨c2RootId, .str "xs", none⟩, some c2ItemParam, RGen.empty⟩
    [c2Item 0, c2Item 1, c2Item 2, c2Item 3]

/-- **C2 counterexample.**  A valid list node with 0 items — below the
declared minimum count 1 of its declared list type — ends the
validation pass with an *empty* problem list (no dedicated count
problem), and a valid list node with 4 items — above the declared
maximum count 3 — likewise ends with no problem: the pass never checks
item counts. -/
theorem list_count_bounds_unchecked_cex :
    c2EmptyList.mapping.length < c2DeclaredType.minimumCount
    ∧ (validateNodes c2EmptyList).problems = []
    ∧ c2DeclaredType.maximumCount = some 3
    ∧ c2LongList.mapping.length = 4
    ∧ (validateNodes c2LongList).problems = [] := by
  decide

/-- The list-branch child loop emits nothing when every child's
assigned type matches the required item type. -/
theorem listChildProblems_eq_nil (source : SourcePath) (it : TypeParam) :
    ∀ (i : Nat) (items : List PNode),
      (∀ c ∈ items, pyEqOptType it.tv c.getAssignedType = true) →
      listChildProblems source it i items = [] := by
  intro i items
  induction items generalizing i with
  | nil => intro _; rfl
  | cons c rest ih =>
      intro h
      simp only [listChildProblems, h c (List.mem_cons_self c rest), if_true,
        List.nil_append]
      exact ih (i + 1) (fun d hd => h d (List.mem_cons_of_mem c hd))

/-- **C2** (amended, proved).  The validation pass performs no item
count check on list nodes: for a list node whose item type is declared
as a list and whose children all match it, the problems attached to the
node are exactly those attached to the same node with *no* items at
all — the outcome is independent of the item count, so no problem
dedicated to the declared minimum/maximum counts is ever produced. -/
theorem list_validation_has_no_count_check (d : ListData) (items : List PNode)
    (it : TypeParam) (hit : d.itemType = some it) (hlist : it.isList = true)
    (hty : ∀ c ∈ items, pyEqOptType it.tv c.getAssignedType = true) :
    (validateNode [] (.list d items)).problems
      = (validateNode [] (.list d [])).problems := by
  have hnil : listChildProblems d.nodeId.source it 0 items = [] :=
    listChildProblems_eq_nil d.nodeId.source it 0 items hty
  simp only [validateNode, RGen.addProblems, List.foldl_nil, visitProblems, hit,
    hlist, if_true, hnil]
  split <;> rfl

/-- Witness for C2's amended statement: the four-item (above-maximum)
list validates to the same problems as the empty list. -/
theorem list_validation_has_no_count_check_witness :
    (validateNode [] c2LongList).problems
      = (validateNode []
          (.list ⟨c2ListId, some ⟨c2RootId, .str "xs", none⟩, some c2ItemParam,
            RGen.empty⟩ [])).problems :=
  list_validation_has_no_count_check
    ⟨c2ListId, some ⟨c2RootId, .str "xs", none⟩, some c2ItemParam, RGen.empty⟩
    [c2Item 0, c2Item 1, c2Item 2, c2Item 3] c2ItemParam rfl rfl (by decide)

/-! Concrete data for the unknown-key claim: a parameter node of a type
declaring exactly one required parameter `"text"`, holding a matching
`"text"` child plus an undeclared `"bogus"` child. -/

def c6NodeId : NodeId := ⟨[.str "g"], []⟩

def c6ChildId : NodeId := ⟨[.str "g", .str "text"], ["text"]⟩

def c6ExtraId : NodeId := ⟨[.str "g", .str "bogus"], ["bogus"]⟩

def c6Type : ConstructT :=
  .mk 1 "greet" "greet" [.mk "text" false (.basic "string") true] []

def c6Child : PNode :=
  .simple ⟨c6ChildId, some ⟨c6NodeId, .str "text", none⟩, "string", .str "hi",
    RGen.empty, some "string"⟩

def c6Extra : PNode :=
  .simple ⟨c6ExtraId, some ⟨c6NodeId, .str "bogus", none⟩, "string", .str "x",
    RGen.empty, some "string"⟩

def c6Node : PNode :=
  .param ⟨c6NodeId, none, "greet", some c6Type, RGen.empty⟩
    [("text", c6Child), ("bogus", c6Extra)]

/-- **C6** (code bug, evaluated at the failing input).  Validating a
parameter node that holds a correctly declared `"text"` child and an
undeclared `"bogus"` child produces exactly one problem: an
unknown-keys problem listing *both* keys — the declared one included —
attached to the *parameter node itself* with the parameter node's own
source path, while both children end the pass with empty problem
lists.  (The source never removes matched keys from
`remaining_children`, and attaches the resulting problem via
`node.add_problem` with `node.node_id.source`.) -/
theorem unknown_keys_bug_at_failing_input :
    (validateNodes c6Node).problems
      = [Problem.asValidation c6NodeId.source (.unknownKeys ["text", "bogus"])]
    ∧ (∀ e ∈ (validateNodes c6Node).mapping, e.2.problems = []) := by
  decide

/-! ## astgen/node_visit.py : `post_visit_parsed_node`

The explicit-stack traversal pushes a node's children in ascending
sorted-key order and pops them last-first, so sibling subtrees complete
in *descending* key order, each entirely before the next; the node
itself is visited after all its children.  List keys `0..n-1` are
already ascending; parameter keys are sorted as Python sorts strings
(code-point lexicographic, stable). -/

/-- Stable ascending insertion by string key (equal keys keep their
original relative order, as CPython's stable `sorted` does). -/
def insertByKey (a : String × α) : List (String × α) → List (String × α)
  | [] => [a]
  | b :: rest => if b.1 < a.1 then b :: insertByKey a rest else a :: b :: rest

/-- Stable insertion sort by string key. -/
def sortByKey : List (String × α) → List (String × α)
  | [] => []
  | a :: rest => insertByKey a (sortByKey rest)

mutual

/-- The visit order of `post_visit_parsed_node`: sibling subtrees in
descending sorted-key order, the node last. -/
def postOrderList : PNode → List PNode
  | .simple d => [.simple d]
  | .list d items => (postOrderAll items).reverse.flatten ++ [.list d items]
  | .param d entries =>
    ((sortByKey (postOrderEntries entries)).reverse.map (·.2)).flatten
      ++ [.param d entries]

def postOrderAll : List PNode → List (List PNode)
  | [] => []
  | n :: rest => postOrderList n :: postOrderAll rest

def postOrderEntries : List (String × PNode) → List (String × List PNode)
  | [] => []
  | (k, n) :: rest => (k, postOrderList n) :: postOrderEntries rest

end

/-! ## defs/syntax_tree/validations.py -/

/-- CPython `str.isprintable` restricted to the ASCII range: a
character is printable iff `0x20 ≤ c < 0x7f`.  (The Unicode category
classes behind the builtin are outside the model's scope; every path in
this development is ASCII, where this is exact.) -/
def pyIsPrintable (s : String) : Bool :=
  s.toList.all fun c => decide (0x20 ≤ c.toNat ∧ c.toNat < 0x7f)

/-- `validate_source_path_element`. -/
def validateSourcePathElement (source : SourcePath) (e : PathElem) : PResult Unit :=
  match e with
  | .num v =>
    if v < 0 then .err [Problem.asValidation source (.sourcePathNegativeInt v)]
    else .ok () []
  | .str s =>
    if s = "" then .err [Problem.asValidation source .sourcePathEmptyText]
    else if ¬ pyIsPrintable s ∨ s.toList.contains '/' then
      .err [Problem.asValidation source (.sourcePathBadText s)]
    else .ok () []

/-- `validate_source_path`. -/
def validateSourcePath (path : SourcePath) : PResult Unit :=
  if path.length ≤ 0 then .err [Problem.asValidation path .sourcePathEmpty]
  else
    (path.foldl (fun g e => g.addResult (validateSourcePathElement path e))
      RGen.empty).build ()

/-- A `NodeReference` used where a `SourcePath` is expected
(`validate_source_path(node.node_id.ref)`). -/
def refPath (r : NodeRef) : SourcePath :=
  r.map .str

/-! ## astgen/gen_final.py : `collect_errors` and `finish_tree` -/

/-- `collect_errors`: one post-order sweep folding
`res.add(validate_source_path(node.node_id.ref)); res.add(node.problems())`
over every node, then `res.build(tree)`: the result is valid iff no
error-level problem (and no invalid path result) was collected, and it
carries every collected problem either way. -/
def collectErrors (root : PNode) : PResult PNode :=
  ((postOrderList root).foldl
      (fun g n => (g.addResult (validateSourcePath (refPath n.nodeId.ref))).addProblems
        n.problems)
      RGen.empty).build root

/-- The problem list `collect_errors` accumulates, in visit order. -/
def collectedProblems (root : PNode) : List Problem :=
  (postOrderList root).flatMap fun n =>
    (validateSourcePath (refPath n.nodeId.ref)).problems ++ n.problems

/-! The immutable `SyntaxNode` (defs/syntax_tree/defs.py): source path,
reference, resolved type, and the key → (nested node | literal) map,
kept in insertion order.  `SyntaxParameter = Union[SyntaxNode,
SimpleParameter]`. -/

mutual

inductive SynParam : Type where
  | node (n : SynNode)
  | val (v : SimpleVal)

inductive SynNode : Type where
  | mk (source : SourcePath) (nodeId : NodeRef) (nodeType : TypeVal)
      (values : List (String × SynParam))

end

def SynNode.values : SynNode → List (String × SynParam)
  | .mk _ _ _ vs => vs

def SynNode.nodeTypeOf : SynNode → TypeVal
  | .mk _ _ t _ => t

/-- An `AddInTypeHandler` as stored in a `TypeHandlerStore`: identity
tag plus its type (code-producing methods are irrelevant to the
finalization phase). -/
structure THandler where
  uid : Nat
  typeV : ConstructT

/-- `TypeHandlerStore.include_only`: keep exactly the store entries
whose ids are referenced, in store order. -/
def includeOnly (store : List (String × THandler)) (types : List String) :
    List (String × THandler) :=
  store.filter fun e => types.contains e.1

/-- Lookup in the `gen` memo dict, keyed by `node_ptr`. -/
def genLookup (g : List (String × SynNode)) (k : String) : Option SynNode :=
  (g.find? (·.1 == k)).map (·.2)

/-- Assignment into the `gen` memo dict (CPython dicts keep the
original position on overwrite). -/
def genInsert (g : List (String × SynNode)) (k : String) (v : SynNode) :
    List (String × SynNode) :=
  if g.any (·.1 == k) then g.map fun e => if e.1 == k then (k, v) else e
  else g ++ [(k, v)]

/-- Python `base_node_type in BASIC_TYPE_NAMES`: true only for a basic
string among the five names (an `AbcType` object is never equal to a
string). -/
def typeValInBasicNames : TypeVal → Bool
  | .basic s => BASIC_TYPE_NAMES.contains s
  | .construct _ => false

/-- One iteration of the `finish_tree` children loop: a simple child
inlines its literal value; a container child is looked up in `gen` (a
miss records a problem and clears the valid flag, a hit appends the
built node). -/
def finishChildStep (gen : List (String × SynNode)) (nid : NodeId)
    (acc : RGen × List (String × SynParam) × Bool) (kc : PKey × PNode) :
    RGen × List (String × SynParam) × Bool :=
  match kc.2 with
  | .simple sd => (acc.1, acc.2.1 ++ [(kc.1.render, .val sd.value)], acc.2.2)
  | child =>
    match genLookup gen child.nodeId.nodePtr with
    | none =>
      (acc.1.addProblem (Problem.asValidation nid.source
        (.didNotGenerateChild kc.1.render nid.nodePtr)), acc.2.1, false)
    | some cg => (acc.1, acc.2.1 ++ [(kc.1.render, .node cg)], acc.2.2)

/-- The `finish_tree` visitor on one node, threading the `(res, gen)`
state; simple nodes are skipped, a missing or invalid type forces the
result invalid, a basic-typed container raises `RuntimeError`, and
otherwise the node's value map is assembled from its children and
memoized under the node's pointer. -/
def finishVisit (st : RGen × List (String × SynNode)) (n : PNode) :
    Except String (RGen × List (String × SynNode)) :=
  match n with
  | .simple _ => .ok st
  | _ =>
    match n.getAssignedType with
    | none => .ok (st.1.forceNotValid, st.2)
    | some nt =>
      if n.isNotValid then .ok (st.1.forceNotValid, st.2)
      else if typeValInBasicNames nt then
        .error ("node " ++ n.nodeId.nodePtr
          ++ " is marked as a complex parsed node, but has simple assigned type")
      else
        let step := n.mapping.foldl (finishChildStep st.2 n.nodeId) (st.1, [], true)
        if step.2.2 then
          .ok (step.1, genInsert st.2 n.nodeId.nodePtr
            (SynNode.mk n.nodeId.source n.nodeId.ref nt step.2.1))
        else .ok (step.1, st.2)

/-- `finish_tree`: the post-order build sweep followed by
`res.build_with(lambda: (gen[root_ptr], handlers.include_only(referenced)))`
(the lookup runs only when the result is valid; a missing root entry
then raises). -/
def finishTree (root : PNode) (store : List (String × THandler))
    (referenced : List String) :
    Except String (PResult (SynNode × List (String × THandler))) := do
  let st ← (postOrderList root).foldlM finishVisit (RGen.empty, [])
  if st.1.invalid then
    .ok (.err st.1.problems)
  else
    match genLookup st.2 root.nodeId.nodePtr with
    | none => .error "KeyError"
    | some sn => .ok (.ok (sn, includeOnly store referenced) st.1.problems)

/-- The `finalize` tail of `generate_prepared_script`:
`.map_result(collect_errors).map_result(finish_tree)` — an invalid
`collect_errors` result short-circuits and `finish_tree` never runs
(note `map_result` drops the problems of a *valid* input result). -/
def finalizePhase (root : PNode) (store : List (String × THandler))
    (referenced : List String) :
    Except String (PResult (SynNode × List (String × THandler))) :=
  match collectErrors root with
  | .err ps => .ok (.err ps)
  | .ok r _ => finishTree r store referenced

/-- Per node, whether `collect_errors` turns the generator invalid at
that node: an invalid source-path check or an error-level problem. -/
def collectNodeInvalid (n : PNode) : Bool :=
  (validateSourcePath (refPath n.nodeId.ref)).isNotValid
    || n.problems.any Problem.isError

theorem collect_fold_problems (l : List PNode) (g : RGen) :
    (l.foldl
        (fun g n => (g.addResult (validateSourcePath (refPath n.nodeId.ref))).addProblems
          n.problems) g).problems
      = g.problems ++ l.flatMap (fun n =>
          (validateSourcePath (refPath n.nodeId.ref)).problems ++ n.problems) := by
  induction l generalizing g with
  | nil => simp
  | cons n rest ih =>
      simp only [List.foldl_cons, List.flatMap_cons, ih]
      rw [RGen.addProblems_problems]
      simp [RGen.addResult]

theorem collect_fold_invalid (l : List PNode) (g : RGen) :
    (l.foldl
        (fun g n => (g.addResult (validateSourcePath (refPath n.nodeId.ref))).addProblems
          n.problems) g).invalid
      = (g.invalid || l.any collectNodeInvalid) := by
  induction l generalizing g with
  | nil => simp
  | cons n rest ih =>
      simp only [List.foldl_cons, List.any_cons, ih]
      rw [RGen.addProblems_invalid]
      simp [RGen.addResult, collectNodeInvalid, Bool.or_assoc]

theorem Problem.isError_iff (p : Problem) : p.isError = true ↔ p.level = .error := by
  simp [Problem.isError]

/-- **C5** (confirmed).  Tree finalization — the problem-collecting
post-order sweep followed by lowering — returns an invalid result and
never runs `finish_tree` (so no `SyntaxNode` is constructed) whenever
any node in the tree carries an error-level problem, and the returned
invalid result still contains every problem of every node; when no node
carries an error-level problem (and the node reference paths are
well-formed), `collect_errors` is valid and lowering proceeds to
`finish_tree`. -/
theorem collect_errors_gates_lowering (root : PNode)
    (store : List (String × THandler)) (referenced : List String) :
    ((∃ n ∈ postOrderList root, ∃ p ∈ n.problems, p.level = .error) →
      collectErrors root = .err (collectedProblems root)
      ∧ finalizePhase root store referenced = .ok (.err (collectedProblems root))
      ∧ ∀ n ∈ postOrderList root, ∀ p ∈ n.problems,
          p ∈ (collectErrors root).problems)
    ∧ ((∀ n ∈ postOrderList root,
          (validateSourcePath (refPath n.nodeId.ref)).isNotValid = false
          ∧ ∀ p ∈ n.problems, p.level ≠ .error) →
        collectErrors root = .ok root (collectedProblems root)
        ∧ finalizePhase root store referenced = finishTree root store referenced) := by
  constructor
  · intro ⟨n, hn, p, hp, hperr⟩
    have hany : (postOrderList root).any collectNodeInvalid = true := by
      refine List.any_eq_true.mpr ⟨n, hn, ?_⟩
      have hp2 : n.problems.any Problem.isError = true :=
        List.any_eq_true.mpr ⟨p, hp, (Problem.isError_iff p).mpr hperr⟩
      simp [collectNodeInvalid, hp2]
    have hce : collectErrors root = .err (collectedProblems root) := by
      unfold collectErrors RGen.build
      rw [collect_fold_invalid, collect_fold_problems]
      simp [RGen.empty, hany, collectedProblems]
    refine ⟨hce, ?_, ?_⟩
    · unfold finalizePhase
      rw [hce]
    · intro m hm q hq
      rw [hce]
      show q ∈ collectedProblems root
      unfold collectedProblems
      exact List.mem_flatMap.mpr ⟨m, hm, List.mem_append_right _ hq⟩
  · intro h
    have hany : (postOrderList root).any collectNodeInvalid = false := by
      rw [List.any_eq_false]
      intro n hn
      obtain ⟨h1, h2⟩ := h n hn
      simp only [collectNodeInvalid, h1, Bool.false_or, Bool.not_eq_true]
      rw [List.any_eq_false]
      intro p hp
      simp only [Bool.not_eq_true]
      rcases Bool.eq_false_or_eq_true p.isError with ht | hf
      · exact absurd ((Problem.isError_iff p).mp ht) (h2 p hp)
      · exact hf
    have hce : collectErrors root = .ok root (collectedProblems root) := by
      unfold collectErrors RGen.build
      rw [collect_fold_invalid, collect_fold_problems]
      simp [RGen.empty, hany, collectedProblems]
    refine ⟨hce, ?_⟩
    unfold finalizePhase
    rw [hce]

/-! Concrete trees for the C5 witness: a single node carrying an
error-level problem, and a single node carrying only a warning. -/

def c5ErrProblem : Problem :=
  Problem.asValidation [.str "e"] (.noTypeDiscovered "x")

def c5ErrTree : PNode :=
  .simple ⟨⟨[.str "e"], ["e"]⟩, none, "string", .str "v",
    ⟨[c5ErrProblem], true⟩, some "string"⟩

def c5WarnProblem : Problem :=
  ⟨[.str "w"], .warning, .parentMarkedAsList⟩

def c5WarnTree : PNode :=
  .simple ⟨⟨[.str "w"], ["w"]⟩, none, "string", .str "v",
    ⟨[c5WarnProblem], false⟩, some "string"⟩

/-- Witness for C5: the error-carrying tree aborts lowering with all
problems returned; the warning-only tree passes `collect_errors` as
valid and lowering proceeds. -/
theorem collect_errors_gates_lowering_witness :
    (collectErrors c5ErrTree = .err (collectedProblems c5ErrTree)
      ∧ finalizePhase c5ErrTree [] [] = .ok (.err (collectedProblems c5ErrTree))
      ∧ ∀ n ∈ postOrderList c5ErrTree, ∀ p ∈ n.problems,
          p ∈ (collectErrors c5ErrTree).problems)
    ∧ (collectErrors c5WarnTree = .ok c5WarnTree (collectedProblems c5WarnTree)
      ∧ finalizePhase c5WarnTree [] [] = finishTree c5WarnTree [] []) := by
  constructor
  · exact (collect_errors_gates_lowering c5ErrTree [] []).1
      ⟨c5ErrTree, List.mem_singleton_self _, c5ErrProblem, List.mem_singleton_self _, rfl⟩
  · refine (collect_errors_gates_lowering c5WarnTree [] []).2 ?_
    intro n hn
    have hn' : n = c5WarnTree := by
      have hl : postOrderList c5WarnTree = [c5WarnTree] := rfl
      rw [hl] at hn
      simpa using hn
    subst hn'
    refine ⟨by decide, ?_⟩
    intro p hp
    have hp' : p = c5WarnProblem := by
      have hl : c5WarnTree.problems = [c5WarnProblem] := rfl
      rw [hl] at hp
      simpa using hp
    subst hp'
    decide

theorem mem_insertByKey (a b : String × α) (l : List (String × α)) :
    b ∈ insertByKey a l ↔ b = a ∨ b ∈ l := by
  induction l with
  | nil => simp [insertByKey]
  | cons c rest ih =>
      simp only [insertByKey]
      split
      · simp only [List.mem_cons, ih]
        tauto
      · simp [List.mem_cons]

theorem mem_sortByKey (b : String × α) (l : List (String × α)) :
    b ∈ sortByKey l ↔ b ∈ l := by
  induction l with
  | nil => simp [sortByKey]
  | cons a rest ih =>
      simp only [sortByKey, mem_insertByKey, ih, List.mem_cons]

/-- `finish_tree`'s visitor leaves the state untouched on simple nodes,
so a prefix of simple nodes in the visit order can be dropped. -/
theorem finishVisit_skips_simples (l rest : List PNode)
    (h : ∀ n ∈ l, ∃ sd, n = .simple sd) (st : RGen × List (String × SynNode)) :
    (l ++ rest).foldlM finishVisit st = rest.foldlM finishVisit st := by
  induction l with
  | nil => rfl
  | cons n l' ih =>
      obtain ⟨sd, rfl⟩ := h n (List.mem_cons_self n l')
      show (finishVisit st (.simple sd) >>= fun st' => (l' ++ rest).foldlM finishVisit st')
        = rest.foldlM finishVisit st
      show ((l' ++ rest).foldlM finishVisit st) = rest.foldlM finishVisit st
      exact ih fun m hm => h m (List.mem_cons_of_mem _ hm)

theorem postOrderEntries_shape (entries : List (String × PNode)) :
    ∀ e ∈ postOrderEntries entries, ∃ kn ∈ entries, e = (kn.1, postOrderList kn.2) := by
  induction entries with
  | nil => intro e he; cases he
  | cons kn rest ih =>
      intro e he
      obtain ⟨k, n⟩ := kn
      simp only [postOrderEntries, List.mem_cons] at he
      rcases he with rfl | he
      · exact ⟨(k, n), List.mem_cons_self _ _, rfl⟩
      · obtain ⟨kn', hkn', rfl⟩ := ih e he
        exact ⟨kn', List.mem_cons_of_mem _ hkn', rfl⟩

/-- Folding the children loop over simple children only: every literal
is inlined in order, the problem state untouched, the valid flag kept. -/
theorem finishChildStep_fold_simples (gen : List (String × SynNode)) (nid : NodeId)
    (entries : List (String × SimpleData)) :
    ∀ (g : RGen) (cs : List (String × SynParam)),
      (entries.map fun e => (PKey.str e.1, PNode.simple e.2)).foldl
          (finishChildStep gen nid) (g, cs, true)
        = (g, cs ++ entries.map (fun e => (e.1, SynParam.val e.2.value)), true) := by
  induction entries with
  | nil => intro g cs; simp
  | cons e rest ih =>
      intro g cs
      simp only [List.map_cons, List.foldl_cons, finishChildStep, PKey.render]
      rw [ih g (cs ++ [(e.1, SynParam.val e.2.value)])]
      simp

theorem find?_map_of_not_mem (fk : String) (es : List (String × SimpleData))
    (f : String × SimpleData → SynParam) (h : fk ∉ es.map (·.1)) :
    ((es.map fun e => (e.1, f e)).find? (·.1 == fk)) = none := by
  induction es with
  | nil => rfl
  | cons e rest ih =>
      simp only [List.map_cons, List.mem_cons, not_or] at h
      simp only [List.map_cons, List.find?_cons]
      have : (e.1 == fk) = false := by
        simp only [beq_eq_false_iff_ne, ne_eq]
        exact fun hh => h.1 hh.symm
      rw [this]
      exact ih h.2

/-- **C1** (amended, proved).  Lowering a valid construct-typed
parameter node whose children are simple literals yields a `SyntaxNode`
whose value map is exactly the node's own children, each inlined as its
literal — no entry is synthesized for any declared `Field` key: a field
key is absent from the value map whenever the script supplied no child
under it. -/
theorem finish_tree_values_are_exactly_children (d : ParamData)
    (entries : List (String × SimpleData)) (ct : ConstructT)
    (hty : d.typeCell = some ct)
    (hval : d.rgen.invalid = false)
    (store : List (String × THandler)) (referenced : List String) :
    finishTree (.param d (entries.map fun e => (e.1, .simple e.2))) store referenced
      = .ok (.ok (SynNode.mk d.nodeId.source d.nodeId.ref (.construct ct)
          (entries.map fun e => (e.1, .val e.2.value)), includeOnly store referenced) [])
    ∧ ∀ fk : String, fk ∉ entries.map (·.1) →
        ((entries.map fun e => (e.1, SynParam.val e.2.value)).find? (·.1 == fk)) = none := by
  constructor
  · set children := entries.map fun e => (e.1, PNode.simple e.2) with hchildren
    have hpost : postOrderList (.param d children)
        = ((sortByKey (postOrderEntries children)).reverse.map (·.2)).flatten
          ++ [.param d children] := rfl
    have hsimple : ∀ n ∈ ((sortByKey (postOrderEntries children)).reverse.map (·.2)).flatten,
        ∃ sd, n = PNode.simple sd := by
      intro n hn
      obtain ⟨ys, hys, hnys⟩ := List.mem_flatten.mp hn
      obtain ⟨e, he, rfl⟩ := List.mem_map.mp hys
      rw [List.mem_reverse] at he
      have he2 := (mem_sortByKey e _).mp he
      obtain ⟨kn, hkn, rfl⟩ := postOrderEntries_shape children e he2
      rw [hchildren] at hkn
      obtain ⟨e2, _, rfl⟩ := List.mem_map.mp hkn
      simp only [postOrderList] at hnys
      rcases List.mem_singleton.mp hnys with rfl
      exact ⟨e2.2, rfl⟩
    have hmap : PNode.mapping (.param d children)
        = entries.map fun e => (PKey.str e.1, PNode.simple e.2) := by
      rw [hchildren]
      simp [PNode.mapping, List.map_map]
    have hvisit : finishVisit (RGen.empty, []) (.param d children)
        = .ok (RGen.empty, [(d.nodeId.nodePtr,
            SynNode.mk d.nodeId.source d.nodeId.ref (.construct ct)
              (entries.map fun e => (e.1, SynParam.val e.2.value)))]) := by
      show (match PNode.getAssignedType (.param d children) with
        | none => Except.ok ((RGen.empty).forceNotValid, [])
        | some nt =>
          if PNode.isNotValid (.param d children) then
            Except.ok ((RGen.empty).forceNotValid, [])
          else if typeValInBasicNames nt then
            Except.error ("node " ++ (PNode.nodeId (.param d children)).nodePtr
              ++ " is marked as a complex parsed node, but has simple assigned type")
          else
            let step := (PNode.mapping (.param d children)).foldl
              (finishChildStep [] (PNode.nodeId (.param d children))) (RGen.empty, [], true)
            if step.2.2 then
              Except.ok (step.1, genInsert [] (PNode.nodeId (.param d children)).nodePtr
                (SynNode.mk (PNode.nodeId (.param d children)).source
                  (PNode.nodeId (.param d children)).ref nt step.2.1))
            else Except.ok (step.1, [])) = _
      simp only [PNode.getAssignedType, hty, Option.map, PNode.isNotValid,
        PNode.rgen, hval, if_false, typeValInBasicNames, hmap, Bool.false_eq_true,
        PNode.nodeId]
      rw [finishChildStep_fold_simples [] d.nodeId entries RGen.empty []]
      simp [genInsert, PNode.nodeId]
    unfold finishTree
    rw [hpost, finishVisit_skips_simples _ _ hsimple]
    simp only [List.foldlM, bind, Except.bind, pure, Except.pure]
    rw [hvisit]
    simp [RGen.empty, genLookup, List.find?, PNode.nodeId]
  · intro fk hfk
    exact find?_map_of_not_mem fk entries _ hfk

/-! Concrete data for the field-synthesis claim: a construct type
declaring one field `"pid"`, and a valid parameter node of that type
with no children at all. -/

def c1FieldType : ConstructT := .mk 10 "pid-int" "pid int" [] []

def c1Type : ConstructT := .mk 11 "proc" "proc" [] [.mk "pid" (.construct c1FieldType)]

def c1RootId : NodeId := ⟨[.str "p"], ["p"]⟩

def c1Root : PNode := .param ⟨c1RootId, none, "proc", some c1Type, RGen.empty⟩ []

/-- **C1 counterexample.**  Lowering a valid parameter node whose
resolved type declares the field `"pid"` and whose script supplied no
children yields a `SyntaxNode` with an *empty* value map: no child
entry is synthesized under the declared field key. -/
theorem finish_tree_no_field_children_cex :
    c1Type.fields.map TypeField.key = ["pid"]
    ∧ finishTree c1Root [("proc", ⟨21, c1Type⟩)] ["proc"]
        = .ok (.ok (SynNode.mk c1RootId.source c1RootId.ref (.construct c1Type) [],
            [("proc", ⟨21, c1Type⟩)]) [])
    ∧ (SynNode.mk c1RootId.source c1RootId.ref (.construct c1Type) []).values = [] :=
  ⟨rfl, rfl, rfl⟩

/-- Witness for C1's amended statement: a node of a one-field type with
a single simple child `"text"` lowers to a value map holding exactly
`"text"`, and the field key `"pid"` is absent. -/
theorem finish_tree_values_are_exactly_children_witness :
    finishTree (.param ⟨c1RootId, none, "proc", some c1Type, RGen.empty⟩
        ([("text", ⟨⟨[.str "p", .str "text"], ["p", "text"]⟩, none, "string",
          .str "hi", RGen.empty, some "string"⟩)].map fun e => (e.1, .simple e.2)))
        [("proc", ⟨21, c1Type⟩)] ["proc"]
      = .ok (.ok (SynNode.mk c1RootId.source c1RootId.ref (.construct c1Type)
          [("text", .val (.str "hi"))], [("proc", ⟨21, c1Type⟩)]) [])
    ∧ (([("text", ⟨⟨[.str "p", .str "text"], ["p", "text"]⟩, none, "string",
          .str "hi", RGen.empty, some "string"⟩)] :
            List (String × SimpleData)).map fun e =>
              (e.1, SynParam.val e.2.value)).find? (·.1 == "pid") = none := by
  have h := finish_tree_values_are_exactly_children
    ⟨c1RootId, none, "proc", some c1Type, RGen.empty⟩
    [("text", ⟨⟨[.str "p", .str "text"], ["p", "text"]⟩, none, "string",
      .str "hi", RGen.empty, some "string"⟩)]
    c1Type rfl rfl [("proc", ⟨21, c1Type⟩)] ["proc"]
  exact ⟨h.1, h.2 "pid" (by decide)⟩

/-! ## defs/script.py : `HandlerStore.create`

`create(source, add_ins)` walks the ordered add-in list; each add-in
registers its type handlers and then its meta-type handlers.  A key
already present in either map yields a validation problem
`"duplicate type registration: '{key}'; found in {addin}"` carrying the
*currently processed* add-in's include name, and the handler is
dropped; otherwise the handler is inserted.  The model flattens the
nested loops into one item list, preserving the exact processing
order. -/

structure TypeHandlerM where
  uid : Nat
  /-- `ath.type().type_id()`. -/
  typeIdOf : String
deriving DecidableEq, Repr

structure MetaHandlerM where
  uid : Nat
  /-- `amh.meta_type().type_id()`. -/
  typeIdOf : String
deriving DecidableEq, Repr

structure AddInM where
  includeName : String
  typeHandlers : List TypeHandlerM
  metaTypes : List MetaHandlerM
deriving DecidableEq, Repr

structure HandlerStoreM where
  types : List (String × TypeHandlerM)
  meta : List (String × MetaHandlerM)
deriving DecidableEq, Repr

/-- One registration performed by `HandlerStore.create`, tagged with
the registering add-in's include name. -/
inductive RegItem where
  | typeH (addin : String) (h : TypeHandlerM)
  | metaH (addin : String) (h : MetaHandlerM)
deriving DecidableEq, Repr

def RegItem.regId : RegItem → String
  | .typeH _ h => h.typeIdOf
  | .metaH _ h => h.typeIdOf

/-- The registrations of the add-in list in processing order: per
add-in, all type handlers then all meta-type handlers. -/
def regItems (addIns : List AddInM) : List RegItem :=
  addIns.flatMap fun a =>
    a.typeHandlers.map (RegItem.typeH a.includeName)
      ++ a.metaTypes.map (RegItem.metaH a.includeName)

/-- `key in type_handlers` on the model's association list. -/
def hasKey (l : List (String × α)) (k : String) : Bool :=
  l.any (·.1 == k)

/-- One step of `HandlerStore.create`: the duplicate check consults
both maps; a clash records the diagnostic (naming the key and the
current add-in) and drops the handler, otherwise the handler is
inserted. -/
def regStep (source : SourcePath) (st : RGen × HandlerStoreM) (it : RegItem) :
    RGen × HandlerStoreM :=
  match it with
  | .typeH addin h =>
    if hasKey st.2.types h.typeIdOf || hasKey st.2.meta h.typeIdOf then
      (st.1.addProblem (Problem.asValidation source
        (.duplicateTypeRegistration h.typeIdOf addin)), st.2)
    else (st.1, { st.2 with types := st.2.types ++ [(h.typeIdOf, h)] })
  | .metaH addin h =>
    if hasKey st.2.types h.typeIdOf || hasKey st.2.meta h.typeIdOf then
      (st.1.addProblem (Problem.asValidation source
        (.duplicateTypeRegistration h.typeIdOf addin)), st.2)
    else (st.1, { st.2 with meta := st.2.meta ++ [(h.typeIdOf, h)] })

/-- `HandlerStore.create(source, add_ins)`. -/
def handlerStoreCreate (source : SourcePath) (addIns : List AddInM) :
    PResult HandlerStoreM :=
  let st := (regItems addIns).foldl (regStep source) (RGen.empty, ⟨[], []⟩)
  st.1.build st.2

/-- The type-handler entries contributed by an item list (ids all
fresh). -/
def typeEntries (l : List RegItem) : List (String × TypeHandlerM) :=
  l.filterMap fun it =>
    match it with
    | .typeH _ h => some (h.typeIdOf, h)
    | .metaH _ _ => none

def metaEntries (l : List RegItem) : List (String × MetaHandlerM) :=
  l.filterMap fun it =>
    match it with
    | .typeH _ _ => none
    | .metaH _ h => some (h.typeIdOf, h)

theorem hasKey_append (l : List (String × α)) (e : String × α) (k : String) :
    hasKey (l ++ [e]) k = (hasKey l k || e.1 == k) := by
  simp [hasKey, List.any_append]

theorem RGen.build_problems (g : RGen) (v : α) : (g.build v).problems = g.problems := by
  unfold RGen.build
  split <;> rfl

/-- Folding the registrations over pairwise-fresh ids inserts every
handler and records no problem. -/
theorem regFold_fresh (source : SourcePath) :
    ∀ (l : List RegItem) (st : RGen × HandlerStoreM),
      (l.map RegItem.regId).Nodup →
      (∀ it ∈ l, hasKey st.2.types it.regId = false
        ∧ hasKey st.2.meta it.regId = false) →
      l.foldl (regStep source) st
        = (st.1, ⟨st.2.types ++ typeEntries l, st.2.meta ++ metaEntries l⟩) := by
  intro l
  induction l with
  | nil =>
      intro st _ _
      simp [typeEntries, metaEntries]
  | cons it rest ih =>
      intro st hdis hfresh
      obtain ⟨hfT, hfM⟩ := hfresh it (List.mem_cons_self it rest)
      have hdisrest : (rest.map RegItem.regId).Nodup := (List.nodup_cons.mp hdis).2
      have hnotin : it.regId ∉ rest.map RegItem.regId := (List.nodup_cons.mp hdis).1
      have hne : ∀ jt ∈ rest, (it.regId == jt.regId) = false := by
        intro jt hjt
        simp only [beq_eq_false_iff_ne, ne_eq]
        intro he
        exact hnotin (he ▸ List.mem_map_of_mem RegItem.regId hjt)
      cases it with
      | typeH addin h =>
          have hstep : regStep source st (.typeH addin h)
              = (st.1, { st.2 with types := st.2.types ++ [(h.typeIdOf, h)] }) := by
            simp [regStep, RegItem.regId] at hfT hfM ⊢
            simp [hfT, hfM]
          rw [List.foldl_cons, hstep,
            ih _ hdisrest ?_]
          · simp [typeEntries, metaEntries, List.append_assoc]
          · intro jt hjt
            obtain ⟨hjT, hjM⟩ := hfresh jt (List.mem_cons_of_mem _ hjt)
            refine ⟨?_, hjM⟩
            show hasKey (st.2.types ++ [(h.typeIdOf, h)]) jt.regId = false
            rw [hasKey_append, hjT]
            simpa [RegItem.regId] using hne jt hjt
      | metaH addin h =>
          have hstep : regStep source st (.metaH addin h)
              = (st.1, { st.2 with meta := st.2.meta ++ [(h.typeIdOf, h)] }) := by
            simp [regStep, RegItem.regId] at hfT hfM ⊢
            simp [hfT, hfM]
          rw [List.foldl_cons, hstep,
            ih _ hdisrest ?_]
          · simp [typeEntries, metaEntries, List.append_assoc]
          · intro jt hjt
            obtain ⟨hjT, hjM⟩ := hfresh jt (List.mem_cons_of_mem _ hjt)
            refine ⟨hjT, ?_⟩
            show hasKey (st.2.meta ++ [(h.typeIdOf, h)]) jt.regId = false
            rw [hasKey_append, hjM]
            simpa [RegItem.regId] using hne jt hjt

/-- Every problem the registration fold records is a
duplicate-registration diagnostic. -/
theorem regFold_problem_shape (source : SourcePath) :
    ∀ (l : List RegItem) (st : RGen × HandlerStoreM),
      (∀ p ∈ st.1.problems, ∃ k a, p = Problem.asValidation source
        (.duplicateTypeRegistration k a)) →
      ∀ p ∈ (l.foldl (regStep source) st).1.problems,
        ∃ k a, p = Problem.asValidation source (.duplicateTypeRegistration k a) := by
  intro l
  induction l with
  | nil => intro st h p hp; exact h p hp
  | cons it rest ih =>
      intro st h p hp
      refine ih (regStep source st it) ?_ p hp
      intro q hq
      cases it with
      | typeH addin hh =>
          simp only [regStep] at hq
          split at hq
          · simp only [RGen.addProblem, List.mem_append, List.mem_singleton] at hq
            rcases hq with hq | rfl
            · exact h q hq
            · exact ⟨hh.typeIdOf, addin, rfl⟩
          · exact h q hq
      | metaH addin hh =>
          simp only [regStep] at hq
          split at hq
          · simp only [RGen.addProblem, List.mem_append, List.mem_singleton] at hq
            rcases hq with hq | rfl
            · exact h q hq
            · exact ⟨hh.typeIdOf, addin, rfl⟩
          · exact h q hq

/-! Concrete add-ins for the duplicate-registration claim. -/

def c7AddInA : AddInM := ⟨"addinA", [⟨1, "x"⟩], []⟩

def c7AddInB : AddInM := ⟨"addinB", [⟨2, "x"⟩], []⟩

/-- Which add-in include names a message's text names. -/
def UMsg.namedAddins : UMsg → List String
  | .duplicateTypeRegistration _ a => [a]
  | _ => []

/-- **C7 counterexample.**  Two add-ins registering the id `"x"` make
registry construction fail, but the single diagnostic names only the
*second* add-in (`found in addinB`) — the first offending add-in's name
appears nowhere in it, contradicting "names both offending add-ins". -/
theorem duplicate_id_cex :
    handlerStoreCreate [.str "src"] [c7AddInA, c7AddInB]
      = .err [Problem.asValidation [.str "src"]
          (.duplicateTypeRegistration "x" "addinB")]
    ∧ UMsg.namedAddins (.duplicateTypeRegistration "x" "addinB") = ["addinB"]
    ∧ "addinA" ∉ UMsg.namedAddins (.duplicateTypeRegistration "x" "addinB") := by
  decide

/-- **C7** (amended, proved).  When all registered ids (across both
handler classes) are pairwise distinct, registry construction returns a
valid registry with no problems, containing every type handler and
every meta handler of every add-in; and whatever the input, every
problem construction can report is a duplicate-id diagnostic naming the
duplicated id and one add-in (the one whose registration was rejected —
not both offending add-ins). -/
theorem handler_store_create_spec (source : SourcePath) (addIns : List AddInM)
    (hdis : ((regItems addIns).map RegItem.regId).Nodup) :
    handlerStoreCreate source addIns
      = .ok ⟨typeEntries (regItems addIns), metaEntries (regItems addIns)⟩ []
    ∧ (∀ a ∈ addIns, ∀ h ∈ a.typeHandlers,
        (h.typeIdOf, h) ∈ typeEntries (regItems addIns))
    ∧ (∀ a ∈ addIns, ∀ h ∈ a.metaTypes,
        (h.typeIdOf, h) ∈ metaEntries (regItems addIns))
    ∧ (∀ (addIns' : List AddInM), ∀ p ∈ (handlerStoreCreate source addIns').problems,
        ∃ k a, p = Problem.asValidation source (.duplicateTypeRegistration k a)) := by
  have hfold := regFold_fresh source (regItems addIns) (RGen.empty, ⟨[], []⟩) hdis
    (fun it _ => ⟨rfl, rfl⟩)
  refine ⟨?_, ?_, ?_, ?_⟩
  · unfold handlerStoreCreate
    rw [hfold]
    rfl
  · intro a ha h hh
    refine List.mem_filterMap.mpr ⟨.typeH a.includeName h, ?_, rfl⟩
    unfold regItems
    exact List.mem_flatMap.mpr ⟨a, ha,
      List.mem_append_left _ (List.mem_map_of_mem _ hh)⟩
  · intro a ha h hh
    refine List.mem_filterMap.mpr ⟨.metaH a.includeName h, ?_, rfl⟩
    unfold regItems
    exact List.mem_flatMap.mpr ⟨a, ha,
      List.mem_append_right _ (List.mem_map_of_mem _ hh)⟩
  · intro addIns' p hp
    unfold handlerStoreCreate at hp
    simp only [RGen.build_problems] at hp
    exact regFold_problem_shape source (regItems addIns')
      (RGen.empty, ⟨[], []⟩) (by intro q hq; cases hq) p hp

/-- Witness for C7: two add-ins with distinct ids build a valid
registry holding both handlers, and in the duplicate scenario the only
problem is a duplicate-id diagnostic. -/
theorem handler_store_create_spec_witness :
    handlerStoreCreate [.str "src"] [⟨"addinA", [⟨1, "x"⟩], []⟩, ⟨"addinB", [⟨2, "y"⟩], []⟩]
      = .ok ⟨[("x", ⟨1, "x"⟩), ("y", ⟨2, "y"⟩)], []⟩ []
    ∧ ("x", (⟨1, "x"⟩ : TypeHandlerM))
        ∈ typeEntries (regItems [⟨"addinA", [⟨1, "x"⟩], []⟩, ⟨"addinB", [⟨2, "y"⟩], []⟩])
    ∧ (∀ p ∈ (handlerStoreCreate [.str "src"] [c7AddInA, c7AddInB]).problems,
        ∃ k a, p = Problem.asValidation [.str "src"] (.duplicateTypeRegistration k a)) := by
  have h := handler_store_create_spec [.str "src"]
    [⟨"addinA", [⟨1, "x"⟩], []⟩, ⟨"addinB", [⟨2, "y"⟩], []⟩] (by decide)
  refine ⟨?_, ?_, ?_⟩
  · rw [h.1]
    decide
  · exact h.2.1 ⟨"addinA", [⟨1, "x"⟩], []⟩ (by decide) ⟨1, "x"⟩ (by decide)
  · exact h.2.2.2 [c7AddInA, c7AddInB]

/-! ## codegen/expand_template.py : `_recursive_expand`

A template is literal text interleaved with `CodeReference`s.
`_recursive_expand` walks the parts; at a reference it first runs the
cycle check `if part in visiting:` — but `part` is a `CodeReference`
*object* while `visiting` holds `NodeReference` *tuples*, and
`CodeReference` defines no `__eq__`, so CPython compares them by
identity and the test is always `False` (the cycle branch, its
placeholder, and its diagnostic are unreachable).  Then
`refs.get_for_purpose` drives the zero/one/many split, descending
recursively in the singleton case.

The model passes `visiting` by value (`visiting ++ [ref]` for the
`append` before the call).  In CPython the list object is shared and
the `visiting = visiting[:-1]` after the call rebinds the local name to
a copy, leaving deeper appends in the shared object — but `visiting` is
read only by the always-false membership test, so the aliasing is
unobservable.  Each Python call frame is one unit of `fuel`; CPython's
unbounded recursion corresponds to the expansion returning `none` for
every fuel bound. -/

/-- A `CodeReference`: target reference plus target purpose. -/
structure CodeRefM where
  ref : NodeRef
  purpose : String
deriving DecidableEq, Repr

/-- A template part (`CodeTemplate.parts`): literal text or a forward
reference. -/
inductive TPart where
  | lit (s : String)
  | ref (r : CodeRefM)
deriving DecidableEq, Repr

/-- A `GeneratedCode` fragment: owning reference, purpose, template. -/
structure GenCode where
  ref : NodeRef
  purpose : String
  template : List TPart
deriving DecidableEq, Repr

/-- `CodeRefMap.get_for_purpose`: the fragments registered for
`(lookup, purpose)`, in registration order. -/
def getForPurpose (refs : List GenCode) (r : NodeRef) (purpose : String) :
    List GenCode :=
  refs.filter fun g => g.ref == r && g.purpose == purpose

/-- CPython `==` between a `CodeReference` object (no `__eq__`) and a
`NodeReference` tuple: cross-type comparison falls back to object
identity, and a `CodeReference` is never the same object as a tuple, so
this is constantly `False`. -/
def pyEqCodeRefTuple : CodeRefM → NodeRef → Bool :=
  fun _ _ => false

/-- Python `part in visiting`. -/
def pyCodeRefInRefList (part : CodeRefM) (visiting : List NodeRef) : Bool :=
  visiting.any fun v => pyEqCodeRefTuple part v

/-- Python `str()` of a tuple of strings. -/
def pyStrTuple : NodeRef → String
  | [] => "()"
  | [a] => "('" ++ a ++ "',)"
  | xs => "('" ++ String.intercalate "', '" xs ++ "')"

/-- `CodeReference.__str__`: `f"\x7bident\x7d/\x7bpurpose\x7d"`. -/
def CodeRefM.pyStr (c : CodeRefM) : String :=
  pyStrTuple c.ref ++ "/" ++ c.purpose

mutual

/-- One `_recursive_expand` call frame (one unit of fuel). -/
def recursiveExpand (refs : List GenCode) :
    Nat → NodeRef → List TPart → List NodeRef → List Problem →
      Option (String × List Problem)
  | 0, _, _, _, _ => none
  | fuel + 1, ref, parts, visiting, probs =>
    expandParts refs fuel ref parts visiting probs ""

/-- The `for part in template.parts:` loop, accumulating the output
text. -/
def expandParts (refs : List GenCode) (fuel : Nat) (ref : NodeRef) :
    List TPart → List NodeRef → List Problem → String →
      Option (String × List Problem)
  | [], _, probs, acc => some (acc, probs)
  | .lit s :: rest, visiting, probs, acc =>
    expandParts refs fuel ref rest visiting probs (acc ++ s)
  | .ref part :: rest, visiting, probs, acc =>
    if pyCodeRefInRefList part visiting then
      -- the (unreachable) cycle branch
      expandParts refs fuel ref rest visiting
        (probs ++ [Problem.asValidation (refPath ref)
          (.cyclicLookup (pyStrTuple ref) part.pyStr)])
        (acc ++ "<cycle:" ++ part.pyStr ++ ">")
    else
      match getForPurpose refs part.ref part.purpose with
      | [] =>
        expandParts refs fuel ref rest visiting
          (probs ++ [Problem.asValidation (refPath part.ref)
            (.noTemplateFound part.purpose (pyStrTuple part.ref))])
          (acc ++ "<unknown:" ++ part.pyStr ++ ">")
      | [g] =>
        match recursiveExpand refs fuel part.ref g.template (visiting ++ [ref]) probs with
        | none => none
        | some (txt, probs') =>
          expandParts refs fuel ref rest visiting probs' (acc ++ txt)
      | _ =>
        expandParts refs fuel ref rest visiting
          (probs ++ [Problem.asValidation (refPath part.ref)
            (.multipleTemplates part.purpose (pyStrTuple part.ref))])
          (acc ++ "<multiple:" ++ part.pyStr ++ ">")

end

/-- `expand_template(source, template, refs)`: run `_recursive_expand`
from an empty stack and build the accumulated problems around the
produced text. -/
def expandTemplate (fuel : Nat) (source : NodeRef) (template : List TPart)
    (refs : List GenCode) : Option (PResult String) :=
  (recursiveExpand refs fuel source template [] []).map fun tp =>
    (RGen.empty.addProblems tp.2).build tp.1

/-! The failing input: two node references whose templates reference
each other. -/

def c4RefA : NodeRef := ["a"]

def c4RefB : NodeRef := ["b"]

def c4TemplateA : List TPart := [.ref ⟨c4RefB, "execute"⟩]

def c4TemplateB : List TPart := [.ref ⟨c4RefA, "execute"⟩]

def c4Refs : List GenCode :=
  [⟨c4RefA, "execute", c4TemplateA⟩, ⟨c4RefB, "execute", c4TemplateB⟩]

theorem pyCodeRefInRefList_false (part : CodeRefM) (visiting : List NodeRef) :
    pyCodeRefInRefList part visiting = false := by
  induction visiting with
  | nil => rfl
  | cons v rest ih => simp [pyCodeRefInRefList, pyEqCodeRefTuple]

/-- The mutual-recursion divergence, by induction on the fuel. -/
theorem c4_diverges : ∀ (fuel : Nat) (visiting : List NodeRef) (probs : List Problem),
    recursiveExpand c4Refs fuel c4RefA c4TemplateA visiting probs = none
    ∧ recursiveExpand c4Refs fuel c4RefB c4TemplateB visiting probs = none := by
  intro fuel
  induction fuel with
  | zero =>
      intro visiting probs
      exact ⟨by simp [recursiveExpand], by simp [recursiveExpand]⟩
  | succ f ih =>
      intro visiting probs
      have hgB : getForPurpose c4Refs c4RefB "execute"
          = [⟨c4RefB, "execute", c4TemplateB⟩] := by decide
      have hgA : getForPurpose c4Refs c4RefA "execute"
          = [⟨c4RefA, "execute", c4TemplateA⟩] := by decide
      constructor
      · simp only [recursiveExpand, c4TemplateA, expandParts,
          pyCodeRefInRefList_false, Bool.false_eq_true, if_false, hgB,
          (ih (visiting ++ [c4RefA]) probs).2]
      · simp only [recursiveExpand, c4TemplateB, expandParts,
          pyCodeRefInRefList_false, Bool.false_eq_true, if_false, hgA,
          (ih (visiting ++ [c4RefB]) probs).1]

/-- **C4** (code bug, evaluated at the failing input).  The cycle check
of `_recursive_expand` compares the `CodeReference` part against
`NodeReference` tuples and is therefore always false — the cycle
branch, its placeholder and its diagnostic are unreachable — and
expanding either of two mutually referencing templates never
terminates: for every recursion budget the expansion runs out of fuel
instead of completing, so no result (and no cycle diagnostic) is ever
produced. -/
theorem template_cycle_check_dead :
    (∀ (part : CodeRefM) (visiting : List NodeRef),
      pyCodeRefInRefList part visiting = false)
    ∧ (∀ fuel, expandTemplate fuel c4RefA c4TemplateA c4Refs = none)
    ∧ (∀ fuel, recursiveExpand c4Refs fuel c4RefA c4TemplateA [] [] = none) := by
  refine ⟨pyCodeRefInRefList_false, ?_, ?_⟩
  · intro fuel
    unfold expandTemplate
    rw [(c4_diverges fuel [] []).1]
    rfl
  · intro fuel
    exact (c4_diverges fuel [] []).1

end NativeShell
